import Mathlib

/-!
# zephyr-serprog: the protocol engine and the bus executor

A shallow embedding of `src/serprog.c` and `src/spi.c`.  The C globals
(`state`, `cmd_in_process`, `byte_counter`, `last_rx_ms`, `byte_buf`, the static
`spiop_params`, `spi_cfg`) are the fields of `Machine`; every C function is a Lean
function on `Machine`.  What leaves the engine (bytes handed to `uart_send_buf`,
calls of the bus executor and of the Zephyr SPI driver) is appended to `Machine.log`.
-/

namespace Serprog

/-! ## Constants -/

/-- Constants the sources use but do not define: the protocol codes of `serprog.h`,
the devicetree properties read with `DT_PROP`, and Zephyr's `SPI_HOLD_ON_CS` flag and
initial `operation` word.  They are parameters of the embedding. -/
structure Platform where
  S_ACK : Nat
  S_NAK : Nat
  S_CMD_NOP : Nat
  S_CMD_Q_IFACE : Nat
  S_CMD_Q_CMDMAP : Nat
  S_CMD_Q_PGMNAME : Nat
  S_CMD_SYNCNOP : Nat
  S_CMD_Q_SERBUF : Nat
  S_CMD_Q_OPBUF : Nat
  S_CMD_Q_WRNMAXLEN : Nat
  S_CMD_Q_RDNMAXLEN : Nat
  S_CMD_Q_BUSTYPE : Nat
  S_CMD_S_BUSTYPE : Nat
  S_CMD_O_SPIOP : Nat
  S_CMD_S_SPI_FREQ : Nat
  /-- The value of `DT_PROP(DT_NODELABEL(spi1), clock_frequency)` in `spiop_set_freq`. -/
  max_freq : Nat
  /-- The value of `DT_PROP(SERPROG_SPI_NODE, clock_frequency)`, the initial frequency. -/
  init_frequency : Nat
  /-- The value of `SPI_OP_MODE_MASTER | SPI_TRANSFER_MSB | SPI_WORD_SET(8)`. -/
  init_operation : Nat
  SPI_HOLD_ON_CS : Nat

/-- The array `commands[]` of `supported_commands`, in source order. -/
def Platform.commands (k : Platform) : List Nat :=
  [k.S_CMD_NOP, k.S_CMD_Q_IFACE, k.S_CMD_Q_CMDMAP, k.S_CMD_Q_PGMNAME, k.S_CMD_SYNCNOP,
   k.S_CMD_Q_SERBUF, k.S_CMD_Q_OPBUF, k.S_CMD_Q_WRNMAXLEN, k.S_CMD_Q_RDNMAXLEN,
   k.S_CMD_Q_BUSTYPE, k.S_CMD_S_BUSTYPE, k.S_CMD_O_SPIOP, k.S_CMD_S_SPI_FREQ]

/-- What the C compiler and the wire format require of the header's constants: the
status bytes and the command codes are byte values, ACK and NAK differ, and the
thirteen `case` labels of the `switch` in `process_sp_command` are pairwise distinct. -/
def Platform.WF (k : Platform) : Prop :=
  k.S_ACK < 256 ∧ k.S_NAK < 256 ∧ k.S_ACK ≠ k.S_NAK ∧
  (∀ c ∈ k.commands, c < 256) ∧ k.commands.Nodup

instance (k : Platform) : Decidable k.WF := by
  unfold Platform.WF; infer_instance

/-- A concrete platform, used to evaluate the embedding on concrete inputs: the
numbering of the serprog protocol for the codes of `serprog.h` (ACK 0x06, NAK 0x15,
Sync 0x10, Bus-operation 0x13, Set-bus-frequency 0x14, ...), an 8 MHz devicetree clock,
and the driver flags of Zephyr's `spi.h`. -/
def std : Platform where
  S_ACK := 0x06
  S_NAK := 0x15
  S_CMD_NOP := 0x00
  S_CMD_Q_IFACE := 0x01
  S_CMD_Q_CMDMAP := 0x02
  S_CMD_Q_PGMNAME := 0x03
  S_CMD_Q_SERBUF := 0x04
  S_CMD_Q_BUSTYPE := 0x05
  S_CMD_Q_OPBUF := 0x07
  S_CMD_Q_WRNMAXLEN := 0x08
  S_CMD_SYNCNOP := 0x10
  S_CMD_Q_RDNMAXLEN := 0x11
  S_CMD_S_BUSTYPE := 0x12
  S_CMD_O_SPIOP := 0x13
  S_CMD_S_SPI_FREQ := 0x14
  max_freq := 8000000
  init_frequency := 8000000
  init_operation := 256
  SPI_HOLD_ON_CS := 4096

/-- The macro `BUSTYPE_SPI_ONLY` (0b1000). -/
def BUSTYPE_SPI_ONLY : Nat := 8

/-- The macro `BUF_SIZE`, the capacity of `byte_buf`. -/
def BUF_SIZE : Nat := 4096

/-- The macro `SP_DATA_TIMEOUT_MS`. -/
def SP_DATA_TIMEOUT_MS : Nat := 300

/-- The global `prog_name[16] = "zephyr-serprog"`: 14 characters, then zero padding. -/
def prog_name : List Nat :=
  [122, 101, 112, 104, 121, 114, 45, 115, 101, 114, 112, 114, 111, 103, 0, 0]

/-! ## Data model -/

/-- The enum `serprog_cmd_state`.  The global `state` is only ever assigned one of
these two values, so the `default:` arm of the `switch` in `process_sp_char` has no
counterpart here. -/
inductive serprog_cmd_state where
  | SP_WAIT_CMD
  | SP_WAIT_DATA
  deriving DecidableEq, Repr

/-- The struct `spiop_header`. -/
structure spiop_header where
  slen : Nat
  rlen : Nat
  deriving DecidableEq, Repr

/-- The fields of Zephyr's `struct spi_config` that the sources read or write. -/
structure spi_config where
  frequency : Nat
  operation : Nat
  deriving DecidableEq, Repr

/-- What the engine does to the outside world, in the order it does it. -/
inductive Event where
  /-- One byte handed to the transmit path (`uart_send_buf` / `uart_send_char`). -/
  | uart (b : Nat)
  /-- A data-phase handler executed `byte_buf[i] = c` for the received byte `c`. -/
  | store (i : Nat) (c : Nat)
  /-- Entry of `spiop_transfer(byte_buf, slen, rlen)`. -/
  | transfer (slen rlen : Nat)
  /-- A call of the driver's `spi_write` with configuration `cfg` and the bytes `data`. -/
  | spi_write (cfg : spi_config) (data : List Nat)
  /-- A call of the driver's `spi_read` with configuration `cfg` for `len` bytes. -/
  | spi_read (cfg : spi_config) (len : Nat)
  /-- A call of the driver's `spi_release`. -/
  | spi_release (cfg : spi_config)
  /-- Entry of `spiop_set_freq(freq)`. -/
  | set_freq (freq : Nat)
  deriving DecidableEq, Repr

/-- The globals of `serprog.c` and `spi.c`, and the log of observable events.
`byte_buf` is the memory starting at the array's address: offsets `< BUF_SIZE` are the
array, larger offsets are whatever follows it. -/
structure Machine where
  state : serprog_cmd_state
  cmd_in_process : Nat
  byte_counter : Nat
  last_rx_ms : Nat
  byte_buf : Nat → Nat
  spiop_params : spiop_header
  spi_cfg : spi_config
  log : List Event

/-- What the Zephyr SPI driver answers during one call of `spiop_transfer`: the
result of `spi_write`, the result of `spi_read`, and the bytes `spi_read` leaves in
the receive buffer. -/
structure Driver where
  write_ret : Int
  read_ret : Int
  read_data : Nat → Nat

/-- Everything one call of `process_sp_char` takes from outside: the received byte,
the two readings of `k_uptime_get_32()` (in `sp_check_timeout` and in `sp_mark_rx`),
and the driver's answers should the bus executor be called. -/
structure Input where
  c : Nat
  t_check : Nat
  t_mark : Nat
  drv : Driver

/-- The state at start-up: the C initialisers of the globals. -/
def init (k : Platform) : Machine where
  state := .SP_WAIT_CMD
  cmd_in_process := 0
  byte_counter := 0
  last_rx_ms := 0
  byte_buf := fun _ => 0
  spiop_params := ⟨0, 0⟩
  spi_cfg := ⟨k.init_frequency, k.init_operation⟩
  log := []

/-! ## `serprog.c` -/

/-- Subtraction of `uint32_t` values: `(uint32_t)(a - b)`. -/
def u32_sub (a b : Nat) : Nat := (((a : Int) - (b : Int)) % 4294967296).toNat

/-- The assignment `buf[i] = v`. -/
def buf_set (buf : Nat → Nat) (i v : Nat) : Nat → Nat :=
  fun j => if j = i then v else buf j

/-- The bytes `buf[0], ..., buf[len-1]`. -/
def buf_bytes (buf : Nat → Nat) (len : Nat) : List Nat := (List.range len).map buf

/-- The function `u24_le(&p[off])`.  The elements are bytes, so no shift leaves 32 bits. -/
def u24_le (p : Nat → Nat) (off : Nat) : Nat :=
  (p off ||| (p (off + 1) <<< 8) ||| (p (off + 2) <<< 16)) % 4294967296

/-- The function `u32_le(&p[off])`. -/
def u32_le (p : Nat → Nat) (off : Nat) : Nat :=
  (p off ||| (p (off + 1) <<< 8) ||| (p (off + 2) <<< 16) ||| (p (off + 3) <<< 24))
    % 4294967296

/-- The function `sp_reset_state`. -/
def sp_reset_state (m : Machine) : Machine :=
  { m with state := .SP_WAIT_CMD, byte_counter := 0 }

/-- The function `sp_mark_rx`, with `t` the value `k_uptime_get_32()` returns. -/
def sp_mark_rx (t : Nat) (m : Machine) : Machine :=
  { m with last_rx_ms := t }

/-- The function `sp_check_timeout`, with `now` the value `k_uptime_get_32()` returns. -/
def sp_check_timeout (now : Nat) (m : Machine) : Machine :=
  if m.state ≠ .SP_WAIT_DATA then m
  else if u32_sub now m.last_rx_ms > SP_DATA_TIMEOUT_MS then sp_reset_state m
  else m

/-- The function `uart_send_buf(buf, len)` of `uart.c`, as the engine sees it: it
returns once all `len` bytes are queued, in order. -/
def uart_send_buf (buf : Nat → Nat) (len : Nat) (m : Machine) : Machine :=
  { m with log := m.log ++ (buf_bytes buf len).map Event.uart }

/-- The function `uart_send_char(c)`, which is `uart_send_buf(&c, 1)`. -/
def uart_send_char (c : Nat) (m : Machine) : Machine :=
  uart_send_buf (fun _ => c) 1 m

/-- The statement `byte_buf[i] = c` of the data-phase handlers, recorded in the log. -/
def store_rx (i c : Nat) (m : Machine) : Machine :=
  { m with byte_buf := buf_set m.byte_buf i c, log := m.log ++ [Event.store i c] }

/-- The body of the loop of `supported_commands`, for `buff = &b[off]`. -/
def bit_step (off : Nat) (b : Nat → Nat) (code : Nat) : Nat → Nat :=
  let cmd := code % 256
  buf_set b (off + (cmd >>> 3)) (b (off + (cmd >>> 3)) ||| ((1 <<< (cmd &&& 7)) % 256))

/-- The function `supported_commands(buff)` with `buff = &buf[off]`: `memset` of 32
bytes, then `bit_step` for each entry of `commands[]` (an array of `uint8_t`). -/
def supported_commands (k : Platform) (buf : Nat → Nat) (off : Nat) : Nat → Nat :=
  let cleared : Nat → Nat := fun j => if off ≤ j ∧ j < off + 32 then 0 else buf j
  k.commands.foldl (bit_step off) cleared

/-- The function `memcpy(&buf[off], src, len(src))`. -/
def memcpy (buf : Nat → Nat) (off : Nat) (src : List Nat) : Nat → Nat :=
  fun j => if off ≤ j ∧ j < off + src.length then src.getD (j - off) 0 else buf j

/-- The `switch` of `process_sp_command`: the new globals and the value of `ret_len`.
`t` is the clock reading `sp_mark_rx` takes in the deferred arm. -/
def process_sp_command_switch (k : Platform) (t : Nat) (cmd : Nat) (m : Machine) :
    Machine × Nat :=
  if cmd = k.S_CMD_NOP then (m, 1)
  else if cmd = k.S_CMD_Q_IFACE then
    ({ m with byte_buf := buf_set (buf_set m.byte_buf 1 1) 2 0 }, 3)
  else if cmd = k.S_CMD_Q_CMDMAP then
    ({ m with byte_buf := supported_commands k m.byte_buf 1 }, 33)
  else if cmd = k.S_CMD_Q_PGMNAME then
    ({ m with byte_buf := memcpy m.byte_buf 1 prog_name }, 17)
  else if cmd = k.S_CMD_SYNCNOP then
    ({ m with byte_buf := buf_set (buf_set m.byte_buf 0 k.S_NAK) 1 k.S_ACK }, 2)
  else if cmd = k.S_CMD_Q_SERBUF ∨ cmd = k.S_CMD_Q_OPBUF then
    ({ m with byte_buf := buf_set (buf_set m.byte_buf 1 ((BUF_SIZE &&& 0xFF) % 256)) 2
                            (((BUF_SIZE >>> 8) &&& 0xFF) % 256) }, 3)
  else if cmd = k.S_CMD_Q_WRNMAXLEN ∨ cmd = k.S_CMD_Q_RDNMAXLEN then
    ({ m with byte_buf := buf_set (buf_set (buf_set m.byte_buf 1 ((BUF_SIZE &&& 0xFF) % 256)) 2
                            (((BUF_SIZE >>> 8) &&& 0xFF) % 256)) 3 0 }, 4)
  else if cmd = k.S_CMD_Q_BUSTYPE then
    ({ m with byte_buf := buf_set m.byte_buf 1 BUSTYPE_SPI_ONLY }, 2)
  else if cmd = k.S_CMD_S_BUSTYPE ∨ cmd = k.S_CMD_O_SPIOP ∨ cmd = k.S_CMD_S_SPI_FREQ then
    (sp_mark_rx t { m with state := .SP_WAIT_DATA }, 0)
  else
    ({ m with byte_buf := buf_set m.byte_buf 0 k.S_NAK }, 1)

/-- The function `process_sp_command(cmd)`. -/
def process_sp_command (k : Platform) (t : Nat) (cmd : Nat) (m : Machine) : Machine :=
  let m0 : Machine :=
    { m with byte_buf := buf_set m.byte_buf 0 k.S_ACK, cmd_in_process := cmd, byte_counter := 0 }
  let r := process_sp_command_switch k t cmd m0
  if r.2 > 0 then uart_send_buf r.1.byte_buf r.2 r.1 else r.1

/-- The code at the label `exit:` shared by `process_sp_spiop` and
`process_sp_set_spi_freq`: count the byte, and NAK and reset past `BUF_SIZE`. -/
def sp_exit (k : Platform) (m : Machine) : Machine :=
  let m1 : Machine := { m with byte_counter := m.byte_counter + 1 }
  if m1.byte_counter > BUF_SIZE then sp_reset_state (uart_send_char k.S_NAK m1) else m1

/-! ## `spi.c` -/

/-- The function `spiop_transfer(byte_buf, slen, rlen)`: the result and the new
globals.  The driver's `spi_read` leaves `d.read_data` in `byte_buf[0..rlen)`.  The
local `ret` is unassigned until a driver call returns; it is read only after one has
(the placeholder 0 below is never returned when no call was made). -/
def spiop_transfer (k : Platform) (d : Driver) (slen rlen : Nat) (m : Machine) :
    Int × Machine :=
  let cfg_hold : spi_config :=
    { m.spi_cfg with operation := m.spi_cfg.operation ||| k.SPI_HOLD_ON_CS }
  let m0 : Machine := { m with log := m.log ++ [Event.transfer slen rlen] }
  if slen = 0 ∧ rlen = 0 then (-1, m0)
  else
    let w : Int × Machine :=
      if slen ≠ 0 then
        (d.write_ret,
          { m0 with log := m0.log ++ [Event.spi_write cfg_hold (buf_bytes m0.byte_buf slen)] })
      else (0, m0)
    if slen ≠ 0 ∧ w.1 ≠ 0 then
      (w.1, { w.2 with log := w.2.log ++ [Event.spi_release cfg_hold] })
    else
      let r : Int × Machine :=
        if rlen ≠ 0 then
          (d.read_ret,
            { w.2 with
              byte_buf := fun j => if j < rlen then d.read_data j else w.2.byte_buf j,
              log := w.2.log ++ [Event.spi_read cfg_hold rlen] })
        else w
      (r.1, { r.2 with log := r.2.log ++ [Event.spi_release cfg_hold] })

/-- The function `spiop_set_freq(freq)`. -/
def spiop_set_freq (k : Platform) (freq : Nat) (m : Machine) : Int × Machine :=
  let m0 : Machine := { m with log := m.log ++ [Event.set_freq freq] }
  let freq1 := if freq > k.max_freq then k.max_freq else freq
  (0, { m0 with spi_cfg := { m0.spi_cfg with frequency := freq1 } })

/-! ## `serprog.c`, the data phase -/

/-- The function `process_sp_spiop(c)`; `d` holds the driver's answers. -/
def process_sp_spiop (k : Platform) (d : Driver) (c : Nat) (m : Machine) : Machine :=
  if m.byte_counter ≤ 5 then
    let m1 := store_rx m.byte_counter c m
    let m2 : Machine :=
      if m1.byte_counter = 5 then
        { m1 with spiop_params := ⟨u24_le m1.byte_buf 0, u24_le m1.byte_buf 3⟩ }
      else m1
    sp_exit k m2
  else
    let send_counter := m.byte_counter - 6
    let m1 := if send_counter < m.spiop_params.slen then store_rx send_counter c m else m
    if send_counter < m.spiop_params.slen ∧
        send_counter ≠ (m.spiop_params.slen + 4294967295) % 4294967296 then
      sp_exit k m1
    else
      let r := spiop_transfer k d m1.spiop_params.slen m1.spiop_params.rlen m1
      let m2 :=
        if r.1 < 0 then uart_send_char k.S_NAK r.2
        else uart_send_buf r.2.byte_buf r.2.spiop_params.rlen (uart_send_char k.S_ACK r.2)
      sp_reset_state m2

/-- The function `process_sp_set_spi_freq(c)`.  The local `ret` is a `uint8_t`, so
the result of `spiop_set_freq` is reduced modulo 256 before the test `ret < 0`. -/
def process_sp_set_spi_freq (k : Platform) (c : Nat) (m : Machine) : Machine :=
  if m.byte_counter < 3 then
    sp_exit k (store_rx m.byte_counter c m)
  else
    let m1 := store_rx m.byte_counter c m
    let freq_hz := u32_le m1.byte_buf 0
    if freq_hz = 0 then uart_send_char k.S_NAK m1
    else
      let r := spiop_set_freq k freq_hz m1
      let ret : Int := r.1 % 256
      if ret < 0 then uart_send_char k.S_NAK r.2
      else sp_exit k (sp_reset_state (uart_send_buf r.2.byte_buf 4 (uart_send_char k.S_ACK r.2)))

/-- The function `process_sp_set_bustype(c)`. -/
def process_sp_set_bustype (k : Platform) (c : Nat) (m : Machine) : Machine :=
  let ret := if c = BUSTYPE_SPI_ONLY then k.S_ACK else k.S_NAK
  { uart_send_char ret m with state := .SP_WAIT_CMD }

/-- The function `process_sp_data(c)`. -/
def process_sp_data (k : Platform) (d : Driver) (c : Nat) (m : Machine) : Machine :=
  if m.cmd_in_process = k.S_CMD_S_BUSTYPE then process_sp_set_bustype k c m
  else if m.cmd_in_process = k.S_CMD_O_SPIOP then process_sp_spiop k d c m
  else if m.cmd_in_process = k.S_CMD_S_SPI_FREQ then process_sp_set_spi_freq k c m
  else m

/-- The function `process_sp_char(c)`. -/
def process_sp_char (k : Platform) (i : Input) (m : Machine) : Machine :=
  let m1 := sp_check_timeout i.t_check m
  match m1.state with
  | .SP_WAIT_CMD => process_sp_command k i.t_mark i.c m1
  | .SP_WAIT_DATA => process_sp_data k i.drv i.c (sp_mark_rx i.t_mark m1)

/-- The loop of `worker_thread` in `main.c` over the bytes taken from the queue. -/
def run (k : Platform) (m : Machine) (is : List Input) : Machine :=
  is.foldl (fun s i => process_sp_char k i s) m

/-! ## Reading the log -/

/-- The bytes handed to the transmit path, in order. -/
def tx_of : List Event → List Nat
  | [] => []
  | Event.uart b :: es => b :: tx_of es
  | _ :: es => tx_of es

/-- The arguments of the calls of `spiop_transfer`, in order. -/
def transfers_of : List Event → List (Nat × Nat)
  | [] => []
  | Event.transfer s r :: es => (s, r) :: transfers_of es
  | _ :: es => transfers_of es

/-- The arguments of the calls of `spiop_set_freq`, in order. -/
def set_freqs_of : List Event → List Nat
  | [] => []
  | Event.set_freq f :: es => f :: set_freqs_of es
  | _ :: es => set_freqs_of es

/-- The events a call appended to the log, `m` being the state before the call and
`m1` the state after it. -/
def emitted (m m1 : Machine) : List Event := m1.log.drop m.log.length

/-- The events of one call of `process_sp_command(c)` in state `m`. -/
def response (k : Platform) (t c : Nat) (m : Machine) : List Event :=
  emitted m (process_sp_command k t c m)

/-- The commands of `commands[]` that `process_sp_command` answers at once. -/
def Platform.immediate (k : Platform) : List Nat :=
  [k.S_CMD_NOP, k.S_CMD_Q_IFACE, k.S_CMD_Q_CMDMAP, k.S_CMD_Q_PGMNAME, k.S_CMD_SYNCNOP,
   k.S_CMD_Q_SERBUF, k.S_CMD_Q_OPBUF, k.S_CMD_Q_WRNMAXLEN, k.S_CMD_Q_RDNMAXLEN,
   k.S_CMD_Q_BUSTYPE]

/-- A driver whose calls all succeed and whose `spi_read` returns 0xC0, 0xC1, ... -/
def drv_ok : Driver := ⟨0, 0, fun j => 0xC0 + j⟩

/-- A driver whose `spi_write` fails with -5 (`-EIO`). -/
def drv_write_fails : Driver := ⟨-5, 0, fun _ => 0⟩

/-- The byte `c` arriving with the clock at `t` ms, the driver being `drv_ok`. -/
def byte_at (t c : Nat) : Input := ⟨c, t, t, drv_ok⟩

/-- No timeout: each byte of the list is checked at most `SP_DATA_TIMEOUT_MS` after the
clock reading `last` stamped by the byte before it. -/
def timely : Nat → List Input → Bool
  | _, [] => true
  | last, i :: is => decide (u32_sub i.t_check last ≤ SP_DATA_TIMEOUT_MS) && timely i.t_mark is

/-- The value of `last_rx_ms` after the bytes of the list were stamped in turn. -/
def last_mark : Nat → List Input → Nat
  | last, [] => last
  | _, i :: is => last_mark i.t_mark is

/-- The buffer after `buf[j] = c0; buf[j+1] = c1; ...` for the bytes of the list. -/
def buf_write (buf : Nat → Nat) : Nat → List Nat → Nat → Nat
  | _, [] => buf
  | j, c :: cs => buf_write (buf_set buf j c) (j + 1) cs

/-- The log of the stores `byte_buf[j] = c0; byte_buf[j+1] = c1; ...`. -/
def stores_from : Nat → List Nat → List Event
  | _, [] => []
  | j, c :: cs => Event.store j c :: stores_from (j + 1) cs

/-- Memory holding the bytes of the list from offset 0 on (and 0 after them). -/
def bytes_mem (l : List Nat) : Nat → Nat := fun j => l.getD j 0

/-- The indices of the stores of received bytes into `byte_buf`, in order. -/
def stores_of : List Event → List Nat
  | [] => []
  | Event.store i _ :: es => i :: stores_of es
  | _ :: es => stores_of es

/-- The invariant of the protocol engine that keeps stores of received bytes inside
`byte_buf`: every store so far had an index below `BUF_SIZE`, and in the data phase
`byte_counter` is at most `BUF_SIZE` for Bus-operation and at most 3 for
Set-bus-frequency. -/
def Inv (k : Platform) (m : Machine) : Prop :=
  (∀ i ∈ stores_of m.log, i < BUF_SIZE) ∧
  (m.state = .SP_WAIT_DATA → m.cmd_in_process = k.S_CMD_O_SPIOP → m.byte_counter ≤ BUF_SIZE) ∧
  (m.state = .SP_WAIT_DATA → m.cmd_in_process = k.S_CMD_S_SPI_FREQ → m.byte_counter ≤ 3)

/-- The configuration `cfg_hold` of `spiop_transfer`: a copy of `spi_cfg` with
`SPI_HOLD_ON_CS` set in `operation`. -/
def cfg_hold (k : Platform) (m : Machine) : spi_config :=
  { m.spi_cfg with operation := m.spi_cfg.operation ||| k.SPI_HOLD_ON_CS }

/-- The driver calls in a log (`spi_write`, `spi_read`, `spi_release`), in order. -/
def driver_calls : List Event → List Event
  | [] => []
  | Event.spi_write c d :: es => Event.spi_write c d :: driver_calls es
  | Event.spi_read c n :: es => Event.spi_read c n :: driver_calls es
  | Event.spi_release c :: es => Event.spi_release c :: driver_calls es
  | _ :: es => driver_calls es

/-! ## `uart.c` and `main.c`: the receive path -/

/-- What the receive interrupt and the worker thread share: the message queue
`rx_msgq` (oldest byte first) and, on the worker's side, the globals of the engine. -/
structure System where
  rx_msgq : List Nat
  engine : Machine

/-- The state of the loop in the receive-ready branch of `interrupt_handler`: the
system and the local `dropped`. -/
structure RxPass where
  sys : System
  dropped : Nat

/-- The body of the loop `for (i = 0; i < r; i++)` for the index `i`: `put_ret i` is
what `k_msgq_put(&rx_msgq, &buf[i], K_NO_WAIT)` returns; on 0 the byte `buf[i]` has
been appended to the queue, otherwise the queue is as before and `dropped` counts. -/
def rx_iter (buf : Nat → Nat) (put_ret : Nat → Int) (st : RxPass) (i : Nat) : RxPass :=
  if put_ret i ≠ 0 then { st with dropped := st.dropped + 1 }
  else { st with sys := { st.sys with rx_msgq := st.sys.rx_msgq ++ [buf i] } }

/-- The first `n` turns of the loop. -/
def rx_loop (buf : Nat → Nat) (put_ret : Nat → Int) (st : RxPass) (n : Nat) : RxPass :=
  (List.range n).foldl (rx_iter buf put_ret) st

/-- The receive-ready branch of `interrupt_handler`: `r` is what `uart_fifo_read`
returned and `buf` what it read; a negative `r` is logged and replaced by 0; `dropped`
starts at 0 and is logged at the end when it is not 0. -/
def rx_ready (r : Int) (buf : Nat → Nat) (put_ret : Nat → Int) (sys : System) : RxPass :=
  let r1 : Int := if r < 0 then 0 else r
  rx_loop buf put_ret ⟨sys, 0⟩ r1.toNat

/-- One turn of the loop of `worker_thread`: `k_msgq_get` takes the oldest byte of the
queue (and waits while there is none), then `process_sp_char` is called on it. -/
def worker_turn (k : Platform) (t_check t_mark : Nat) (d : Driver) (sys : System) : System :=
  match sys.rx_msgq with
  | [] => sys
  | c :: rest => { rx_msgq := rest, engine := process_sp_char k ⟨c, t_check, t_mark, d⟩ sys.engine }

/-! ## Elementary facts about the embedding -/

theorem emitted_append (m m1 : Machine) (es : List Event) (h : m1.log = m.log ++ es) :
    emitted m m1 = es := by
  simp [emitted, h]

theorem tx_of_append (a b : List Event) : tx_of (a ++ b) = tx_of a ++ tx_of b := by
  induction a with
  | nil => rfl
  | cons e a ih => cases e <;> simp [tx_of, ih]

theorem tx_of_map_uart (l : List Nat) : tx_of (l.map Event.uart) = l := by
  induction l with
  | nil => rfl
  | cons b l ih => simp [tx_of, ih]

theorem and7 (x : Nat) : x &&& 7 = x % 8 := Nat.and_pow_two_sub_one_eq_mod x 3

theorem shr3 (x : Nat) : x >>> 3 = x / 8 := by
  rw [Nat.shiftRight_eq_div_pow]

theorem one_shl_mod (j : Nat) (hj : j < 8) : (1 <<< j) % 256 = 2 ^ j := by
  rw [Nat.one_shiftLeft]
  apply Nat.mod_eq_of_lt
  calc 2 ^ j < 2 ^ 8 := Nat.pow_lt_pow_right (by decide) hj
    _ = 256 := by norm_num

theorem or_shl8 (a b : Nat) (ha : a < 256) : a ||| (b <<< 8) = a + 256 * b := by
  rw [Nat.shiftLeft_eq, Nat.lor_comm, Nat.mul_comm b, Nat.add_comm]
  exact (Nat.mul_add_lt_is_or (by simpa using ha) b).symm

theorem or_shl16 (a b : Nat) (ha : a < 65536) : a ||| (b <<< 16) = a + 65536 * b := by
  rw [Nat.shiftLeft_eq, Nat.lor_comm, Nat.mul_comm b, Nat.add_comm]
  exact (Nat.mul_add_lt_is_or (by simpa using ha) b).symm

theorem or_shl24 (a b : Nat) (ha : a < 16777216) : a ||| (b <<< 24) = a + 16777216 * b := by
  rw [Nat.shiftLeft_eq, Nat.lor_comm, Nat.mul_comm b, Nat.add_comm]
  exact (Nat.mul_add_lt_is_or (by simpa using ha) b).symm

/-- On bytes `u24_le` is the little-endian value. -/
theorem u24_le_bytes (p : Nat → Nat) (off : Nat) (h0 : p off < 256) (h1 : p (off + 1) < 256)
    (h2 : p (off + 2) < 256) :
    u24_le p off = p off + 256 * p (off + 1) + 65536 * p (off + 2) := by
  unfold u24_le
  rw [or_shl8 _ _ h0, or_shl16 _ _ (by omega)]
  omega

/-- On bytes `u32_le` is the little-endian value. -/
theorem u32_le_bytes (p : Nat → Nat) (off : Nat) (h0 : p off < 256) (h1 : p (off + 1) < 256)
    (h2 : p (off + 2) < 256) (h3 : p (off + 3) < 256) :
    u32_le p off =
      p off + 256 * p (off + 1) + 65536 * p (off + 2) + 16777216 * p (off + 3) := by
  unfold u32_le
  rw [or_shl8 _ _ h0, or_shl16 _ _ (by omega), or_shl24 _ _ (by omega)]
  omega

theorem bit_step_testBit (off : Nat) (b : Nat → Nat) (code c : Nat) (hcode : code < 256) :
    Nat.testBit (bit_step off b code (off + c / 8)) (c % 8)
      = (Nat.testBit (b (off + c / 8)) (c % 8) || decide (code = c)) := by
  unfold bit_step buf_set
  rw [Nat.mod_eq_of_lt hcode, and7, shr3, one_shl_mod _ (Nat.mod_lt _ (by decide))]
  by_cases h : c / 8 = code / 8
  · rw [h]
    simp only [if_true, Nat.testBit_or, Nat.testBit_two_pow]
    congr 1
    by_cases h2 : code % 8 = c % 8
    · have : code = c := by omega
      simp [this]
    · have : code ≠ c := fun e => h2 (by rw [e])
      simp [h2, this]
  · have h1 : ¬ (off + c / 8 = off + code / 8) := by omega
    have : code ≠ c := fun e => h (by rw [e])
    simp [h1, this]

theorem bit_step_below (off : Nat) (b : Nat → Nat) (code j : Nat) (hj : j < off) :
    bit_step off b code j = b j := by
  unfold bit_step buf_set
  have : ¬ (j = off + (code % 256) >>> 3) := by omega
  simp [this]

theorem fold_testBit (off : Nat) (l : List Nat) (c : Nat) :
    ∀ (b : Nat → Nat), (∀ x ∈ l, x < 256) →
    Nat.testBit (l.foldl (bit_step off) b (off + c / 8)) (c % 8)
      = (Nat.testBit (b (off + c / 8)) (c % 8) || decide (c ∈ l)) := by
  induction l with
  | nil => intro b _; simp
  | cons a l ih =>
    intro b hl
    rw [List.foldl_cons, ih _ (fun x hx => hl x (List.mem_cons_of_mem _ hx)),
      bit_step_testBit off b a c (hl a (List.mem_cons_self _ _))]
    by_cases h : a = c
    · simp [h]
    · have : ¬ c = a := fun e => h e.symm
      simp [h, this]

theorem fold_below (off : Nat) (l : List Nat) (j : Nat) (hj : j < off) :
    ∀ (b : Nat → Nat), l.foldl (bit_step off) b j = b j := by
  induction l with
  | nil => intro b; rfl
  | cons a l ih => intro b; rw [List.foldl_cons, ih, bit_step_below off b a j hj]

/-- Bit `c mod 8` of byte `c div 8` of the bitmap is set exactly for the codes of
`commands[]`, whatever the buffer held before. -/
theorem supported_commands_bit (k : Platform) (hk : k.WF) (buf : Nat → Nat) (off c : Nat)
    (hc : c < 256) :
    Nat.testBit (supported_commands k buf off (off + c / 8)) (c % 8) = true ↔
      c ∈ k.commands := by
  unfold supported_commands
  rw [fold_testBit off _ c _ hk.2.2.2.1]
  have : off ≤ off + c / 8 ∧ off + c / 8 < off + 32 := by omega
  simp [this]

theorem supported_commands_below (k : Platform) (buf : Nat → Nat) (off j : Nat) (hj : j < off) :
    supported_commands k buf off j = buf j := by
  unfold supported_commands
  rw [fold_below off _ j hj]
  have : ¬ off ≤ j := by omega
  simp [this]

/-- The codes of `commands[]` differ pairwise, read in either direction. -/
theorem WF_distinct (k : Platform) (hk : k.WF) :
    k.commands.Pairwise (fun a b => a ≠ b ∧ b ≠ a) :=
  List.Pairwise.imp (fun h => ⟨h, Ne.symm h⟩) hk.2.2.2.2

/-! ## The `switch` of `process_sp_command`, arm by arm -/

theorem sw_nop (k : Platform) (t : Nat) (m : Machine) :
    process_sp_command_switch k t k.S_CMD_NOP m = (m, 1) := by
  simp [process_sp_command_switch]

theorem sw_iface (k : Platform) (hk : k.WF) (t : Nat) (m : Machine) :
    process_sp_command_switch k t k.S_CMD_Q_IFACE m =
      ({ m with byte_buf := buf_set (buf_set m.byte_buf 1 1) 2 0 }, 3) := by
  have hd := WF_distinct k hk
  simp only [Platform.commands, List.pairwise_cons, List.mem_cons, List.mem_singleton,
    forall_eq_or_imp, forall_eq, List.not_mem_nil, IsEmpty.forall_iff, implies_true,
    List.Pairwise.nil, and_true] at hd
  simp [process_sp_command_switch, hd]

theorem sw_cmdmap (k : Platform) (hk : k.WF) (t : Nat) (m : Machine) :
    process_sp_command_switch k t k.S_CMD_Q_CMDMAP m =
      ({ m with byte_buf := supported_commands k m.byte_buf 1 }, 33) := by
  have hd := WF_distinct k hk
  simp only [Platform.commands, List.pairwise_cons, List.mem_cons, List.mem_singleton,
    forall_eq_or_imp, forall_eq, List.not_mem_nil, IsEmpty.forall_iff, implies_true,
    List.Pairwise.nil, and_true] at hd
  simp [process_sp_command_switch, hd]

theorem sw_pgmname (k : Platform) (hk : k.WF) (t : Nat) (m : Machine) :
    process_sp_command_switch k t k.S_CMD_Q_PGMNAME m =
      ({ m with byte_buf := memcpy m.byte_buf 1 prog_name }, 17) := by
  have hd := WF_distinct k hk
  simp only [Platform.commands, List.pairwise_cons, List.mem_cons, List.mem_singleton,
    forall_eq_or_imp, forall_eq, List.not_mem_nil, IsEmpty.forall_iff, implies_true,
    List.Pairwise.nil, and_true] at hd
  simp [process_sp_command_switch, hd]

theorem sw_syncnop (k : Platform) (hk : k.WF) (t : Nat) (m : Machine) :
    process_sp_command_switch k t k.S_CMD_SYNCNOP m =
      ({ m with byte_buf := buf_set (buf_set m.byte_buf 0 k.S_NAK) 1 k.S_ACK }, 2) := by
  have hd := WF_distinct k hk
  simp only [Platform.commands, List.pairwise_cons, List.mem_cons, List.mem_singleton,
    forall_eq_or_imp, forall_eq, List.not_mem_nil, IsEmpty.forall_iff, implies_true,
    List.Pairwise.nil, and_true] at hd
  simp [process_sp_command_switch, hd]

theorem sw_bufsize (k : Platform) (hk : k.WF) (t : Nat) (c : Nat) (m : Machine)
    (hc : c = k.S_CMD_Q_SERBUF ∨ c = k.S_CMD_Q_OPBUF) :
    process_sp_command_switch k t c m =
      ({ m with byte_buf := buf_set (buf_set m.byte_buf 1 0) 2 16 }, 3) := by
  have hd := WF_distinct k hk
  simp only [Platform.commands, List.pairwise_cons, List.mem_cons, List.mem_singleton,
    forall_eq_or_imp, forall_eq, List.not_mem_nil, IsEmpty.forall_iff, implies_true,
    List.Pairwise.nil, and_true] at hd
  have e1 : (BUF_SIZE &&& 0xFF) % 256 = 0 := by decide
  have e2 : ((BUF_SIZE >>> 8) &&& 0xFF) % 256 = 16 := by decide
  rcases hc with rfl | rfl <;> simp [process_sp_command_switch, hd, e1, e2]

theorem sw_maxlen (k : Platform) (hk : k.WF) (t : Nat) (c : Nat) (m : Machine)
    (hc : c = k.S_CMD_Q_WRNMAXLEN ∨ c = k.S_CMD_Q_RDNMAXLEN) :
    process_sp_command_switch k t c m =
      ({ m with byte_buf := buf_set (buf_set (buf_set m.byte_buf 1 0) 2 16) 3 0 }, 4) := by
  have hd := WF_distinct k hk
  simp only [Platform.commands, List.pairwise_cons, List.mem_cons, List.mem_singleton,
    forall_eq_or_imp, forall_eq, List.not_mem_nil, IsEmpty.forall_iff, implies_true,
    List.Pairwise.nil, and_true] at hd
  have e1 : (BUF_SIZE &&& 0xFF) % 256 = 0 := by decide
  have e2 : ((BUF_SIZE >>> 8) &&& 0xFF) % 256 = 16 := by decide
  rcases hc with rfl | rfl <;> simp [process_sp_command_switch, hd, e1, e2]

theorem sw_bustype (k : Platform) (hk : k.WF) (t : Nat) (m : Machine) :
    process_sp_command_switch k t k.S_CMD_Q_BUSTYPE m =
      ({ m with byte_buf := buf_set m.byte_buf 1 8 }, 2) := by
  have hd := WF_distinct k hk
  simp only [Platform.commands, List.pairwise_cons, List.mem_cons, List.mem_singleton,
    forall_eq_or_imp, forall_eq, List.not_mem_nil, IsEmpty.forall_iff, implies_true,
    List.Pairwise.nil, and_true] at hd
  simp [process_sp_command_switch, hd, BUSTYPE_SPI_ONLY]

theorem sw_deferred (k : Platform) (hk : k.WF) (t : Nat) (c : Nat) (m : Machine)
    (hc : c = k.S_CMD_S_BUSTYPE ∨ c = k.S_CMD_O_SPIOP ∨ c = k.S_CMD_S_SPI_FREQ) :
    process_sp_command_switch k t c m =
      (sp_mark_rx t { m with state := .SP_WAIT_DATA }, 0) := by
  have hd := WF_distinct k hk
  simp only [Platform.commands, List.pairwise_cons, List.mem_cons, List.mem_singleton,
    forall_eq_or_imp, forall_eq, List.not_mem_nil, IsEmpty.forall_iff, implies_true,
    List.Pairwise.nil, and_true] at hd
  rcases hc with rfl | rfl | rfl <;> simp [process_sp_command_switch, hd]

theorem sw_default (k : Platform) (t : Nat) (c : Nat) (m : Machine) (hc : c ∉ k.commands) :
    process_sp_command_switch k t c m =
      ({ m with byte_buf := buf_set m.byte_buf 0 k.S_NAK }, 1) := by
  simp only [Platform.commands, List.mem_cons, List.mem_singleton, not_or, List.not_mem_nil,
    not_false_eq_true, and_true] at hc
  simp [process_sp_command_switch, hc]

theorem uart_send_buf_log (buf : Nat → Nat) (len : Nat) (m : Machine) :
    (uart_send_buf buf len m).log = m.log ++ (buf_bytes buf len).map Event.uart := rfl

theorem uart_send_char_log (c : Nat) (m : Machine) :
    (uart_send_char c m).log = m.log ++ [Event.uart c] := rfl

/-! ## Immediate commands -/

theorem buf_bytes_getD (f : Nat → Nat) (n i d : Nat) (h : i < n) :
    (buf_bytes f n).getD i d = f i := by
  simp [buf_bytes, List.getD_eq_getElem?_getD, List.getElem?_map, List.getElem?_range h]

theorem buf_bytes_length (f : Nat → Nat) (n : Nat) : (buf_bytes f n).length = n := by
  simp [buf_bytes]

/-- When the `switch` leaves `ret_len = n + 1`, the call sends the first `n + 1` bytes
of the work buffer and nothing else. -/
theorem response_of_switch (k : Platform) (t c : Nat) (m m1 : Machine) (n : Nat)
    (hsw : process_sp_command_switch k t c
      { m with byte_buf := buf_set m.byte_buf 0 k.S_ACK, cmd_in_process := c, byte_counter := 0 }
        = (m1, n + 1))
    (hlog : m1.log = m.log) :
    response k t c m = (buf_bytes m1.byte_buf (n + 1)).map Event.uart ∧
    (process_sp_command k t c m).state = m1.state := by
  unfold response process_sp_command
  simp only [hsw]
  constructor
  · apply emitted_append
    simp [uart_send_buf, hlog]
  · simp [uart_send_buf]

theorem resp_nop (k : Platform) (t : Nat) (m : Machine) :
    response k t k.S_CMD_NOP m = [k.S_ACK].map Event.uart ∧
    (process_sp_command k t k.S_CMD_NOP m).state = m.state := by
  have h := response_of_switch k t _ m _ 0 (sw_nop k t _) rfl
  rw [h.1, h.2]
  simp [buf_bytes, List.range, List.range.loop, buf_set]

theorem resp_iface (k : Platform) (hk : k.WF) (t : Nat) (m : Machine) :
    response k t k.S_CMD_Q_IFACE m = [k.S_ACK, 1, 0].map Event.uart ∧
    (process_sp_command k t k.S_CMD_Q_IFACE m).state = m.state := by
  have h := response_of_switch k t _ m _ 2 (sw_iface k hk t _) rfl
  rw [h.1, h.2]
  simp [buf_bytes, List.range, List.range.loop, buf_set]

theorem resp_cmdmap (k : Platform) (hk : k.WF) (t : Nat) (m : Machine) :
    response k t k.S_CMD_Q_CMDMAP m =
      (k.S_ACK :: buf_bytes
        (fun j => supported_commands k (buf_set m.byte_buf 0 k.S_ACK) 1 (1 + j)) 32).map
          Event.uart ∧
    (process_sp_command k t k.S_CMD_Q_CMDMAP m).state = m.state := by
  have h := response_of_switch k t _ m _ 32 (sw_cmdmap k hk t _) rfl
  rw [h.1, h.2]
  have h0 : supported_commands k (buf_set m.byte_buf 0 k.S_ACK) 1 0 = k.S_ACK := by
    rw [supported_commands_below _ _ _ _ (by decide)]; simp [buf_set]
  simp [buf_bytes, List.range, List.range.loop, h0]

theorem resp_pgmname (k : Platform) (hk : k.WF) (t : Nat) (m : Machine) :
    response k t k.S_CMD_Q_PGMNAME m = (k.S_ACK :: prog_name).map Event.uart ∧
    (process_sp_command k t k.S_CMD_Q_PGMNAME m).state = m.state := by
  have h := response_of_switch k t _ m _ 16 (sw_pgmname k hk t _) rfl
  rw [h.1, h.2]
  simp [buf_bytes, List.range, List.range.loop, buf_set, memcpy, prog_name]

theorem resp_syncnop (k : Platform) (hk : k.WF) (t : Nat) (m : Machine) :
    response k t k.S_CMD_SYNCNOP m = [k.S_NAK, k.S_ACK].map Event.uart ∧
    (process_sp_command k t k.S_CMD_SYNCNOP m).state = m.state := by
  have h := response_of_switch k t _ m _ 1 (sw_syncnop k hk t _) rfl
  rw [h.1, h.2]
  simp [buf_bytes, List.range, List.range.loop, buf_set]

theorem resp_bufsize (k : Platform) (hk : k.WF) (t c : Nat) (m : Machine)
    (hc : c = k.S_CMD_Q_SERBUF ∨ c = k.S_CMD_Q_OPBUF) :
    response k t c m = [k.S_ACK, 0x00, 0x10].map Event.uart ∧
    (process_sp_command k t c m).state = m.state := by
  have h := response_of_switch k t _ m _ 2 (sw_bufsize k hk t c _ hc) rfl
  rw [h.1, h.2]
  simp [buf_bytes, List.range, List.range.loop, buf_set]

theorem resp_maxlen (k : Platform) (hk : k.WF) (t c : Nat) (m : Machine)
    (hc : c = k.S_CMD_Q_WRNMAXLEN ∨ c = k.S_CMD_Q_RDNMAXLEN) :
    response k t c m = [k.S_ACK, 0x00, 0x10, 0x00].map Event.uart ∧
    (process_sp_command k t c m).state = m.state := by
  have h := response_of_switch k t _ m _ 3 (sw_maxlen k hk t c _ hc) rfl
  rw [h.1, h.2]
  simp [buf_bytes, List.range, List.range.loop, buf_set]

theorem resp_bustype (k : Platform) (hk : k.WF) (t : Nat) (m : Machine) :
    response k t k.S_CMD_Q_BUSTYPE m = [k.S_ACK, 0x08].map Event.uart ∧
    (process_sp_command k t k.S_CMD_Q_BUSTYPE m).state = m.state := by
  have h := response_of_switch k t _ m _ 1 (sw_bustype k hk t _) rfl
  rw [h.1, h.2]
  simp [buf_bytes, List.range, List.range.loop, buf_set]

theorem resp_default (k : Platform) (t c : Nat) (m : Machine) (hc : c ∉ k.commands) :
    response k t c m = [k.S_NAK].map Event.uart ∧
    (process_sp_command k t c m).state = m.state := by
  have h := response_of_switch k t _ m _ 0 (sw_default k t c _ hc) rfl
  rw [h.1, h.2]
  simp [buf_bytes, List.range, List.range.loop, buf_set]

/-- A deferred command sends nothing: it arms the data phase. -/
theorem command_deferred (k : Platform) (hk : k.WF) (t c : Nat) (m : Machine)
    (hc : c = k.S_CMD_S_BUSTYPE ∨ c = k.S_CMD_O_SPIOP ∨ c = k.S_CMD_S_SPI_FREQ) :
    process_sp_command k t c m =
      { m with state := .SP_WAIT_DATA, cmd_in_process := c, byte_counter := 0,
               last_rx_ms := t, byte_buf := buf_set m.byte_buf 0 k.S_ACK } := by
  unfold process_sp_command
  simp only [sw_deferred k hk t c _ hc]
  simp [sp_mark_rx]

theorem resp_deferred (k : Platform) (hk : k.WF) (t c : Nat) (m : Machine)
    (hc : c = k.S_CMD_S_BUSTYPE ∨ c = k.S_CMD_O_SPIOP ∨ c = k.S_CMD_S_SPI_FREQ) :
    response k t c m = [] := by
  unfold response
  rw [command_deferred k hk t c m hc]
  simp [emitted]

/-- In `SP_WAIT_CMD` the byte is dispatched as a command. -/
theorem char_in_wait_cmd (k : Platform) (i : Input) (m : Machine)
    (hm : m.state = .SP_WAIT_CMD) :
    process_sp_char k i m = process_sp_command k i.t_mark i.c m := by
  simp [process_sp_char, sp_check_timeout, hm]

/-- C8: in `SP_WAIT_CMD` every immediate command hands exactly these bytes to the
transmit path and leaves the phase unchanged: NOP gives ACK; Query-interface-version
ACK, 1, 0; Query-supported-commands ACK and the 32 bitmap bytes (33 bytes);
Query-program-name ACK and the 16 bytes of "zephyr-serprog" padded with zeros (17
bytes); Sync NAK, ACK; the two buffer-size queries ACK, 0x00, 0x10; the two max-length
queries ACK, 0x00, 0x10, 0x00; Query-bus-type ACK, 0x08. -/
theorem immediate_command_responses (k : Platform) (hk : k.WF) (i : Input) (m : Machine)
    (hm : m.state = .SP_WAIT_CMD) :
    process_sp_char k i m = process_sp_command k i.t_mark i.c m ∧
    response k i.t_mark k.S_CMD_NOP m = [k.S_ACK].map Event.uart ∧
    response k i.t_mark k.S_CMD_Q_IFACE m = [k.S_ACK, 1, 0].map Event.uart ∧
    (response k i.t_mark k.S_CMD_Q_CMDMAP m =
      (k.S_ACK :: buf_bytes
        (fun j => supported_commands k (buf_set m.byte_buf 0 k.S_ACK) 1 (1 + j)) 32).map
          Event.uart ∧
      (response k i.t_mark k.S_CMD_Q_CMDMAP m).length = 33) ∧
    (response k i.t_mark k.S_CMD_Q_PGMNAME m = (k.S_ACK :: prog_name).map Event.uart ∧
      (response k i.t_mark k.S_CMD_Q_PGMNAME m).length = 17 ∧
      prog_name = "zephyr-serprog".toList.map Char.toNat ++ [0, 0]) ∧
    response k i.t_mark k.S_CMD_SYNCNOP m = [k.S_NAK, k.S_ACK].map Event.uart ∧
    response k i.t_mark k.S_CMD_Q_SERBUF m = [k.S_ACK, 0x00, 0x10].map Event.uart ∧
    response k i.t_mark k.S_CMD_Q_OPBUF m = [k.S_ACK, 0x00, 0x10].map Event.uart ∧
    response k i.t_mark k.S_CMD_Q_WRNMAXLEN m = [k.S_ACK, 0x00, 0x10, 0x00].map Event.uart ∧
    response k i.t_mark k.S_CMD_Q_RDNMAXLEN m = [k.S_ACK, 0x00, 0x10, 0x00].map Event.uart ∧
    response k i.t_mark k.S_CMD_Q_BUSTYPE m = [k.S_ACK, 0x08].map Event.uart ∧
    (∀ c ∈ k.immediate, (process_sp_command k i.t_mark c m).state = .SP_WAIT_CMD) := by
  refine ⟨char_in_wait_cmd k i m hm, (resp_nop k _ m).1, (resp_iface k hk _ m).1,
    ⟨(resp_cmdmap k hk _ m).1, ?_⟩, ⟨(resp_pgmname k hk _ m).1, ?_, by decide⟩,
    (resp_syncnop k hk _ m).1, (resp_bufsize k hk _ _ m (Or.inl rfl)).1,
    (resp_bufsize k hk _ _ m (Or.inr rfl)).1, (resp_maxlen k hk _ _ m (Or.inl rfl)).1,
    (resp_maxlen k hk _ _ m (Or.inr rfl)).1, (resp_bustype k hk _ m).1, ?_⟩
  · rw [(resp_cmdmap k hk _ m).1]; simp [buf_bytes_length]
  · rw [(resp_pgmname k hk _ m).1]; simp [prog_name]
  · intro c hc
    simp only [Platform.immediate, List.mem_cons, List.mem_singleton, List.not_mem_nil,
      or_false] at hc
    rcases hc with rfl | rfl | rfl | rfl | rfl | rfl | rfl | rfl | rfl | rfl
    · rw [(resp_nop k _ m).2, hm]
    · rw [(resp_iface k hk _ m).2, hm]
    · rw [(resp_cmdmap k hk _ m).2, hm]
    · rw [(resp_pgmname k hk _ m).2, hm]
    · rw [(resp_syncnop k hk _ m).2, hm]
    · rw [(resp_bufsize k hk _ _ m (Or.inl rfl)).2, hm]
    · rw [(resp_bufsize k hk _ _ m (Or.inr rfl)).2, hm]
    · rw [(resp_maxlen k hk _ _ m (Or.inl rfl)).2, hm]
    · rw [(resp_maxlen k hk _ _ m (Or.inr rfl)).2, hm]
    · rw [(resp_bustype k hk _ m).2, hm]

/-- C8 at the standard numbering, in the start-up state: Query-program-name (0x03)
answers ACK and the sixteen name bytes. -/
theorem immediate_command_responses_witness :
    std.WF ∧ (init std).state = .SP_WAIT_CMD ∧
    response std 0 0x03 (init std) =
      [0x06, 122, 101, 112, 104, 121, 114, 45, 115, 101, 114, 112, 114, 111, 103, 0, 0].map
        Event.uart :=
  ⟨by decide, rfl,
    (immediate_command_responses std (by decide) ⟨0x03, 0, 0, ⟨0, 0, fun _ => 0⟩⟩ (init std)
      rfl).2.2.2.2.1.1⟩

/-- C7: for every byte code `c`, bit `c mod 8` of byte `c div 8` of the bitmap that
`supported_commands` writes, and that Query-supported-commands sends after ACK, is set
exactly when `c` is one of the thirteen codes of `commands[]`, which are exactly the
codes `process_sp_command` does not answer with the single NAK of the `default` arm. -/
theorem cmdmap_bit_iff_supported (k : Platform) (hk : k.WF) (c : Nat) (hc : c < 256)
    (t : Nat) (m : Machine) :
    (∀ buf off, Nat.testBit (supported_commands k buf off (off + c / 8)) (c % 8) = true ↔
      c ∈ k.commands) ∧
    (Nat.testBit ((tx_of (response k t k.S_CMD_Q_CMDMAP m)).getD (1 + c / 8) 0) (c % 8) = true ↔
      c ∈ k.commands) ∧
    (c ∈ k.commands ↔ tx_of (response k t c m) ≠ [k.S_NAK]) := by
  refine ⟨fun buf off => supported_commands_bit k hk buf off c hc, ?_, ?_⟩
  · rw [(resp_cmdmap k hk t m).1, tx_of_map_uart, Nat.add_comm 1, List.getD_cons_succ,
      buf_bytes_getD _ _ _ _ (by omega)]
    exact supported_commands_bit k hk _ 1 c hc
  · constructor
    · intro hmem
      have hne : k.S_ACK ≠ k.S_NAK := hk.2.2.1
      simp only [Platform.commands, List.mem_cons, List.mem_singleton, List.not_mem_nil,
        or_false] at hmem
      rcases hmem with rfl | rfl | rfl | rfl | rfl | rfl | rfl | rfl | rfl | rfl | rfl | rfl | rfl
      · rw [(resp_nop k _ m).1]; simp [tx_of, hne]
      · rw [(resp_iface k hk _ m).1]; simp [tx_of]
      · rw [(resp_cmdmap k hk _ m).1, tx_of_map_uart]; simp [buf_bytes]
      · rw [(resp_pgmname k hk _ m).1]; simp [tx_of, prog_name]
      · rw [(resp_syncnop k hk _ m).1]; simp [tx_of]
      · rw [(resp_bufsize k hk _ _ m (Or.inl rfl)).1]; simp [tx_of]
      · rw [(resp_bufsize k hk _ _ m (Or.inr rfl)).1]; simp [tx_of]
      · rw [(resp_maxlen k hk _ _ m (Or.inl rfl)).1]; simp [tx_of]
      · rw [(resp_maxlen k hk _ _ m (Or.inr rfl)).1]; simp [tx_of]
      · rw [(resp_bustype k hk _ m).1]; simp [tx_of]
      · rw [resp_deferred k hk _ _ m (Or.inl rfl)]; simp [tx_of]
      · rw [resp_deferred k hk _ _ m (Or.inr (Or.inl rfl))]; simp [tx_of]
      · rw [resp_deferred k hk _ _ m (Or.inr (Or.inr rfl))]; simp [tx_of]
    · intro h
      by_contra hmem
      exact h (by rw [(resp_default k t c m hmem).1]; simp [tx_of])

/-- C7 at the standard numbering: the bit of Sync (0x10) is set and the bit of the
unsupported code 0x06 is clear. -/
theorem cmdmap_bit_iff_supported_witness :
    std.WF ∧ (0x10 : Nat) < 256 ∧
    Nat.testBit (supported_commands std (fun _ => 0xFF) 1 (1 + 0x10 / 8)) (0x10 % 8) = true ∧
    ((0x10 : Nat) ∈ std.commands ↔ tx_of (response std 0 0x10 (init std)) ≠ [std.S_NAK]) :=
  ⟨by decide, by decide,
    ((cmdmap_bit_iff_supported std (by decide) 0x10 (by decide) 0 (init std)).1
      (fun _ => 0xFF) 1).mpr (by decide),
    (cmdmap_bit_iff_supported std (by decide) 0x10 (by decide) 0 (init std)).2.2⟩

/-! ## Timeout and dispatch in `process_sp_char` -/

theorem u32_sub_gt (a b n : Nat) :
    u32_sub a b > n ↔ ((a : Int) - (b : Int)) % 4294967296 > (n : Int) := by
  unfold u32_sub
  omega

theorem char_timed_out (k : Platform) (i : Input) (m : Machine)
    (hm : m.state = .SP_WAIT_DATA) (ht : u32_sub i.t_check m.last_rx_ms > 300) :
    process_sp_char k i m = process_sp_command k i.t_mark i.c (sp_reset_state m) := by
  simp [process_sp_char, sp_check_timeout, hm, SP_DATA_TIMEOUT_MS, ht, sp_reset_state]

theorem char_in_wait_data (k : Platform) (i : Input) (m : Machine)
    (hm : m.state = .SP_WAIT_DATA) (ht : u32_sub i.t_check m.last_rx_ms ≤ 300) :
    process_sp_char k i m = process_sp_data k i.drv i.c (sp_mark_rx i.t_mark m) := by
  have : ¬ (300 < u32_sub i.t_check m.last_rx_ms) := by omega
  simp [process_sp_char, sp_check_timeout, hm, SP_DATA_TIMEOUT_MS, this]

theorem emitted_congr (m m1 x : Machine) (h : m.log = m1.log) : emitted m x = emitted m1 x := by
  simp [emitted, h]

/-- The counterexample to C4: after Set-bus-type (0x12) has armed the data phase, the
byte 0x10 arriving 1 ms later is taken as the bus-type value and answered with the
single byte NAK, not with NAK, ACK. -/
theorem sync_in_data_phase_counterexample :
    (run std (init std) [byte_at 0 0x12]).state = .SP_WAIT_DATA ∧
    u32_sub 1 (run std (init std) [byte_at 0 0x12]).last_rx_ms ≤ 300 ∧
    tx_of (emitted (run std (init std) [byte_at 0 0x12])
      (process_sp_char std (byte_at 1 std.S_CMD_SYNCNOP) (run std (init std) [byte_at 0 0x12])))
      = [std.S_NAK] ∧
    tx_of (emitted (run std (init std) [byte_at 0 0x12])
      (process_sp_char std (byte_at 1 std.S_CMD_SYNCNOP) (run std (init std) [byte_at 0 0x12])))
      ≠ [std.S_NAK, std.S_ACK] := by
  decide

/-- C4, amended: the Sync byte yields exactly NAK, ACK, and leaves the phase
`SP_WAIT_CMD`, when the phase is `SP_WAIT_CMD` or when it is `SP_WAIT_DATA` and more than
300 ms have passed since the last byte; in `SP_WAIT_DATA` within the timeout the byte is
not a command: it is given to the data handler of the active command. -/
theorem sync_response (k : Platform) (hk : k.WF) (i : Input) (hi : i.c = k.S_CMD_SYNCNOP)
    (m : Machine) :
    (m.state = .SP_WAIT_CMD ∨ u32_sub i.t_check m.last_rx_ms > 300 →
      emitted m (process_sp_char k i m) = [k.S_NAK, k.S_ACK].map Event.uart ∧
      (process_sp_char k i m).state = .SP_WAIT_CMD) ∧
    (m.state = .SP_WAIT_DATA ∧ u32_sub i.t_check m.last_rx_ms ≤ 300 →
      process_sp_char k i m = process_sp_data k i.drv i.c (sp_mark_rx i.t_mark m)) := by
  constructor
  · intro h
    by_cases hm : m.state = .SP_WAIT_CMD
    · rw [char_in_wait_cmd k i m hm, hi]
      exact ⟨(resp_syncnop k hk _ m).1, by rw [(resp_syncnop k hk _ m).2, hm]⟩
    · have hd : m.state = .SP_WAIT_DATA := by
        cases hs : m.state with
        | SP_WAIT_CMD => exact absurd hs hm
        | SP_WAIT_DATA => rfl
      have ht : u32_sub i.t_check m.last_rx_ms > 300 := h.resolve_left hm
      rw [char_timed_out k i m hd ht, hi, emitted_congr m (sp_reset_state m) _ rfl]
      exact ⟨(resp_syncnop k hk _ _).1, by rw [(resp_syncnop k hk _ _).2]; rfl⟩
  · intro h
    exact char_in_wait_data k i m h.1 h.2

/-- C4, amended, at the standard numbering: Sync arriving 301 ms after Set-bus-type
armed the data phase is answered NAK, ACK. -/
theorem sync_response_witness :
    std.WF ∧ (byte_at 301 0x10).c = std.S_CMD_SYNCNOP ∧
    u32_sub (byte_at 301 0x10).t_check (run std (init std) [byte_at 0 0x12]).last_rx_ms > 300 ∧
    emitted (run std (init std) [byte_at 0 0x12])
      (process_sp_char std (byte_at 301 0x10) (run std (init std) [byte_at 0 0x12]))
      = [std.S_NAK, std.S_ACK].map Event.uart :=
  ⟨by decide, rfl, by decide,
    ((sync_response std (by decide) (byte_at 301 0x10) rfl
      (run std (init std) [byte_at 0 0x12])).1 (Or.inr (by decide))).1⟩

/-- C6: in `SP_WAIT_DATA`, when `(now - last_rx_ms) mod 2^32` exceeds 300 the byte is
processed exactly as `process_sp_command` processes it on the reset session (phase
`SP_WAIT_CMD`, `byte_counter` 0): same events, same resulting state, nothing for the
abandoned command, whose code and byte count do not influence the result; otherwise
the session is not reset and the byte goes to the data handler of the active command. -/
theorem timeout_refines_fresh_command (k : Platform) (i : Input) (m : Machine)
    (hm : m.state = .SP_WAIT_DATA) :
    (((i.t_check : Int) - (m.last_rx_ms : Int)) % 4294967296 > 300 →
      process_sp_char k i m = process_sp_command k i.t_mark i.c (sp_reset_state m) ∧
      emitted m (process_sp_char k i m) = response k i.t_mark i.c (sp_reset_state m) ∧
      (sp_reset_state m).state = .SP_WAIT_CMD ∧ (sp_reset_state m).byte_counter = 0 ∧
      (∀ cmd n, process_sp_char k i m =
        process_sp_char k i { m with cmd_in_process := cmd, byte_counter := n })) ∧
    (((i.t_check : Int) - (m.last_rx_ms : Int)) % 4294967296 ≤ 300 →
      sp_check_timeout i.t_check m = m ∧
      process_sp_char k i m = process_sp_data k i.drv i.c (sp_mark_rx i.t_mark m)) := by
  constructor
  · intro h
    have ht : u32_sub i.t_check m.last_rx_ms > 300 := (u32_sub_gt _ _ 300).mpr h
    refine ⟨char_timed_out k i m hm ht, ?_, rfl, rfl, ?_⟩
    · rw [char_timed_out k i m hm ht]
      exact emitted_congr m (sp_reset_state m) _ rfl
    · intro cmd n
      rw [char_timed_out k i m hm ht,
        char_timed_out k i { m with cmd_in_process := cmd, byte_counter := n } hm ht]
      rfl
  · intro h
    have ht : ¬ (u32_sub i.t_check m.last_rx_ms > 300) := by
      rw [u32_sub_gt]; omega
    refine ⟨?_, char_in_wait_data k i m hm (by omega)⟩
    simp [sp_check_timeout, hm, SP_DATA_TIMEOUT_MS]
    intro h2
    exact absurd h2 ht

/-- C6 on a Bus-operation abandoned after three header bytes: the NOP byte arriving
301 ms later is answered with ACK alone. -/
theorem timeout_refines_fresh_command_witness :
    (run std (init std) [byte_at 0 0x13, byte_at 1 3, byte_at 2 0, byte_at 3 0]).state
      = .SP_WAIT_DATA ∧
    (((byte_at 304 0x00).t_check : Int) -
      ((run std (init std) [byte_at 0 0x13, byte_at 1 3, byte_at 2 0, byte_at 3 0]).last_rx_ms : Int))
        % 4294967296 > 300 ∧
    emitted (run std (init std) [byte_at 0 0x13, byte_at 1 3, byte_at 2 0, byte_at 3 0])
      (process_sp_char std (byte_at 304 0x00)
        (run std (init std) [byte_at 0 0x13, byte_at 1 3, byte_at 2 0, byte_at 3 0]))
      = response std 304 0x00
        (sp_reset_state (run std (init std) [byte_at 0 0x13, byte_at 1 3, byte_at 2 0, byte_at 3 0])) :=
  ⟨by decide, by decide,
    ((timeout_refines_fresh_command std (byte_at 304 0x00)
      (run std (init std) [byte_at 0 0x13, byte_at 1 3, byte_at 2 0, byte_at 3 0])
      (by decide)).1 (by decide)).2.1⟩

/-! ## The data phase, one byte at a time -/

theorem timely_cons (t : Nat) (i : Input) (is : List Input) :
    timely t (i :: is) = true ↔ u32_sub i.t_check t ≤ 300 ∧ timely i.t_mark is = true := by
  simp [timely, SP_DATA_TIMEOUT_MS]

theorem timely_append (is js : List Input) :
    ∀ t, timely t (is ++ js) = true ↔ timely t is = true ∧ timely (last_mark t is) js = true := by
  induction is with
  | nil => intro t; simp [timely, last_mark]
  | cons i is ih => intro t; simp [timely, last_mark, ih, and_assoc]

theorem run_nil (k : Platform) (m : Machine) : run k m [] = m := rfl

theorem run_cons (k : Platform) (m : Machine) (i : Input) (is : List Input) :
    run k m (i :: is) = run k (process_sp_char k i m) is := rfl

theorem run_append (k : Platform) (m : Machine) (is js : List Input) :
    run k m (is ++ js) = run k (run k m is) js := by
  simp [run, List.foldl_append]

theorem data_spiop (k : Platform) (hk : k.WF) (d : Driver) (c : Nat) (m : Machine)
    (hc : m.cmd_in_process = k.S_CMD_O_SPIOP) :
    process_sp_data k d c m = process_sp_spiop k d c m := by
  have hd := WF_distinct k hk
  simp only [Platform.commands, List.pairwise_cons, List.mem_cons, List.mem_singleton,
    forall_eq_or_imp, forall_eq, List.not_mem_nil, IsEmpty.forall_iff, implies_true,
    List.Pairwise.nil, and_true] at hd
  simp [process_sp_data, hc, hd]

theorem data_set_spi_freq (k : Platform) (hk : k.WF) (d : Driver) (c : Nat) (m : Machine)
    (hc : m.cmd_in_process = k.S_CMD_S_SPI_FREQ) :
    process_sp_data k d c m = process_sp_set_spi_freq k c m := by
  have hd := WF_distinct k hk
  simp only [Platform.commands, List.pairwise_cons, List.mem_cons, List.mem_singleton,
    forall_eq_or_imp, forall_eq, List.not_mem_nil, IsEmpty.forall_iff, implies_true,
    List.Pairwise.nil, and_true] at hd
  simp [process_sp_data, hc, hd]

theorem data_set_bustype (k : Platform) (d : Driver) (c : Nat) (m : Machine)
    (hc : m.cmd_in_process = k.S_CMD_S_BUSTYPE) :
    process_sp_data k d c m = process_sp_set_bustype k c m := by
  simp [process_sp_data, hc]

/-- One of the first three frequency bytes: stored and counted. -/
theorem freq_store (k : Platform) (c : Nat) (m : Machine) (h : m.byte_counter < 3) :
    process_sp_set_spi_freq k c m =
      { m with byte_buf := buf_set m.byte_buf m.byte_counter c,
               log := m.log ++ [Event.store m.byte_counter c],
               byte_counter := m.byte_counter + 1 } := by
  have h1 : ¬ (BUF_SIZE < m.byte_counter + 1) := by simp [BUF_SIZE]; omega
  simp [process_sp_set_spi_freq, h, sp_exit, store_rx, h1]

/-- The fourth frequency byte when the value decodes to zero: NAK, and `return`. -/
theorem freq_zero (k : Platform) (c : Nat) (m : Machine) (h : ¬ m.byte_counter < 3)
    (hz : u32_le (buf_set m.byte_buf m.byte_counter c) 0 = 0) :
    process_sp_set_spi_freq k c m =
      { m with byte_buf := buf_set m.byte_buf m.byte_counter c,
               log := m.log ++ [Event.store m.byte_counter c, Event.uart k.S_NAK] } := by
  simp [process_sp_set_spi_freq, h, store_rx, hz, uart_send_char, uart_send_buf, buf_bytes,
    List.range, List.range.loop]

/-- The fourth frequency byte when the value is not zero: the frequency is set,
clamped, and ACK and the four bytes are sent. -/
theorem freq_nonzero (k : Platform) (c : Nat) (m : Machine) (h : ¬ m.byte_counter < 3)
    (hz : u32_le (buf_set m.byte_buf m.byte_counter c) 0 ≠ 0) :
    process_sp_set_spi_freq k c m =
      { m with state := .SP_WAIT_CMD,
               byte_counter := 1,
               byte_buf := buf_set m.byte_buf m.byte_counter c,
               spi_cfg := { m.spi_cfg with
                 frequency := min (u32_le (buf_set m.byte_buf m.byte_counter c) 0) k.max_freq },
               log := m.log ++ [Event.store m.byte_counter c,
                 Event.set_freq (u32_le (buf_set m.byte_buf m.byte_counter c) 0),
                 Event.uart k.S_ACK] ++
                 (buf_bytes (buf_set m.byte_buf m.byte_counter c) 4).map Event.uart } := by
  have h1 : ¬ (BUF_SIZE < 1) := by simp [BUF_SIZE]
  simp only [process_sp_set_spi_freq, h, store_rx, hz, spiop_set_freq, sp_exit, sp_reset_state,
    uart_send_char, uart_send_buf, if_false]
  simp [h1, buf_bytes, List.range, List.range.loop]
  by_cases hgt : k.max_freq < u32_le (buf_set m.byte_buf m.byte_counter c) 0
  · simp [hgt, Nat.min_eq_right (Nat.le_of_lt hgt)]
  · simp [hgt, Nat.min_eq_left (Nat.le_of_not_lt hgt)]

/-! ## Set-bus-frequency -/

/-- The session after the Set-bus-frequency command byte and three timely data bytes. -/
theorem freq_three (k : Platform) (hk : k.WF) (m : Machine) (hm : m.state = .SP_WAIT_CMD)
    (i0 i1 i2 i3 : Input) (h0 : i0.c = k.S_CMD_S_SPI_FREQ)
    (ht : timely i0.t_mark [i1, i2, i3] = true) :
    run k m [i0, i1, i2, i3] =
      { m with state := .SP_WAIT_DATA, cmd_in_process := k.S_CMD_S_SPI_FREQ, byte_counter := 3,
               last_rx_ms := i3.t_mark,
               byte_buf := buf_write (buf_set m.byte_buf 0 k.S_ACK) 0 [i1.c, i2.c, i3.c],
               log := m.log ++ stores_from 0 [i1.c, i2.c, i3.c] } := by
  simp only [timely_cons] at ht
  obtain ⟨t1, t2, t3, -⟩ := ht
  simp only [run_cons, run_nil]
  rw [char_in_wait_cmd k i0 m hm, h0, command_deferred k hk _ _ m (Or.inr (Or.inr rfl))]
  rw [char_in_wait_data k i1 _ rfl t1, data_set_spi_freq k hk _ _ _ rfl,
    freq_store k _ _ (by simp [sp_mark_rx])]
  rw [char_in_wait_data k i2 _ rfl t2, data_set_spi_freq k hk _ _ _ rfl,
    freq_store k _ _ (by simp [sp_mark_rx])]
  rw [char_in_wait_data k i3 _ rfl t3, data_set_spi_freq k hk _ _ _ rfl,
    freq_store k _ _ (by simp [sp_mark_rx])]
  simp [sp_mark_rx, buf_write, stores_from]

theorem u32_le_four (buf : Nat → Nat) (b0 b1 b2 b3 : Nat) :
    u32_le (buf_set (buf_write buf 0 [b0, b1, b2]) 3 b3) 0 = u32_le (bytes_mem [b0, b1, b2, b3]) 0 := by
  simp [u32_le, buf_set, buf_write, bytes_mem]

theorem buf_bytes_four (buf : Nat → Nat) (b0 b1 b2 b3 : Nat) :
    buf_bytes (buf_set (buf_write buf 0 [b0, b1, b2]) 3 b3) 4 = [b0, b1, b2, b3] := by
  simp [buf_bytes, List.range, List.range.loop, buf_set, buf_write]

/-- The fourth data byte of Set-bus-frequency, after `freq_three`. -/
theorem freq_fourth (k : Platform) (hk : k.WF) (m : Machine) (hm : m.state = .SP_WAIT_CMD)
    (i0 i1 i2 i3 i4 : Input) (h0 : i0.c = k.S_CMD_S_SPI_FREQ)
    (ht : timely i0.t_mark [i1, i2, i3, i4] = true) :
    run k m [i0, i1, i2, i3, i4] =
      process_sp_set_spi_freq k i4.c (sp_mark_rx i4.t_mark (run k m [i0, i1, i2, i3])) ∧
    run k m [i0, i1, i2, i3] =
      { m with state := .SP_WAIT_DATA, cmd_in_process := k.S_CMD_S_SPI_FREQ, byte_counter := 3,
               last_rx_ms := i3.t_mark,
               byte_buf := buf_write (buf_set m.byte_buf 0 k.S_ACK) 0 [i1.c, i2.c, i3.c],
               log := m.log ++ stores_from 0 [i1.c, i2.c, i3.c] } := by
  have ht3 : timely i0.t_mark [i1, i2, i3] = true := by
    simp only [timely_cons] at ht ⊢
    exact ⟨ht.1, ht.2.1, ht.2.2.1, rfl⟩
  have ht4 : u32_sub i4.t_check i3.t_mark ≤ 300 := by
    simp only [timely_cons] at ht
    exact ht.2.2.2.1
  have e3 := freq_three k hk m hm i0 i1 i2 i3 h0 ht3
  refine ⟨?_, e3⟩
  have e : run k m [i0, i1, i2, i3, i4] = run k (run k m [i0, i1, i2, i3]) [i4] :=
    run_append k m [i0, i1, i2, i3] [i4]
  rw [e, run_cons, run_nil, char_in_wait_data k i4 _ (by rw [e3]) (by rw [e3]; exact ht4),
    data_set_spi_freq k hk _ _ _ (by rw [e3]; rfl)]

/-- C9: a Set-bus-frequency exchange whose four data bytes decode to zero stores the
bytes, answers the fourth with exactly one NAK (no ACK, no echo), never calls
`spiop_set_freq`, and leaves `spi_cfg` as it was. -/
theorem set_freq_zero_naks (k : Platform) (hk : k.WF) (m : Machine)
    (hm : m.state = .SP_WAIT_CMD) (i0 i1 i2 i3 i4 : Input) (h0 : i0.c = k.S_CMD_S_SPI_FREQ)
    (ht : timely i0.t_mark [i1, i2, i3, i4] = true)
    (hz : u32_le (bytes_mem [i1.c, i2.c, i3.c, i4.c]) 0 = 0) :
    emitted m (run k m [i0, i1, i2, i3]) = stores_from 0 [i1.c, i2.c, i3.c] ∧
    emitted m (run k m [i0, i1, i2, i3, i4]) =
      stores_from 0 [i1.c, i2.c, i3.c, i4.c] ++ [Event.uart k.S_NAK] ∧
    tx_of (emitted m (run k m [i0, i1, i2, i3, i4])) = [k.S_NAK] ∧
    set_freqs_of (emitted m (run k m [i0, i1, i2, i3, i4])) = [] ∧
    (run k m [i0, i1, i2, i3, i4]).spi_cfg = m.spi_cfg := by
  obtain ⟨e4, e3⟩ := freq_fourth k hk m hm i0 i1 i2 i3 i4 h0 ht
  have hz1 : u32_le (buf_set (sp_mark_rx i4.t_mark (run k m [i0, i1, i2, i3])).byte_buf
      (sp_mark_rx i4.t_mark (run k m [i0, i1, i2, i3])).byte_counter i4.c) 0 = 0 := by
    rw [e3]
    simp only [sp_mark_rx]
    rw [u32_le_four]
    exact hz
  have hlog : (run k m [i0, i1, i2, i3, i4]).log =
      m.log ++ (stores_from 0 [i1.c, i2.c, i3.c, i4.c] ++ [Event.uart k.S_NAK]) := by
    rw [e4, freq_zero k _ _ (by rw [e3]; simp [sp_mark_rx]) hz1, e3]
    simp [sp_mark_rx, stores_from]
  have hem := emitted_append m _ _ hlog
  refine ⟨emitted_append m _ _ (by rw [e3]), hem, ?_, ?_, ?_⟩
  · rw [hem]; simp [stores_from, tx_of]
  · rw [hem]; simp [stores_from, set_freqs_of]
  · rw [e4, freq_zero k _ _ (by rw [e3]; simp [sp_mark_rx]) hz1, e3]
    rfl

/-- C9 at the standard numbering: 0x14 followed by four zero bytes. -/
theorem set_freq_zero_naks_witness :
    std.WF ∧ (init std).state = .SP_WAIT_CMD ∧ (byte_at 0 0x14).c = std.S_CMD_S_SPI_FREQ ∧
    timely (byte_at 0 0x14).t_mark [byte_at 1 0, byte_at 2 0, byte_at 3 0, byte_at 4 0] = true ∧
    u32_le (bytes_mem [0, 0, 0, 0]) 0 = 0 ∧
    tx_of (emitted (init std) (run std (init std)
      [byte_at 0 0x14, byte_at 1 0, byte_at 2 0, byte_at 3 0, byte_at 4 0])) = [std.S_NAK] :=
  ⟨by decide, rfl, rfl, by decide, by decide,
    (set_freq_zero_naks std (by decide) (init std) rfl (byte_at 0 0x14) (byte_at 1 0)
      (byte_at 2 0) (byte_at 3 0) (byte_at 4 0) rfl (by decide) (by decide)).2.2.1⟩

/-- C10: a Set-bus-frequency exchange whose four data bytes decode to a non-zero value
`f` calls `spiop_set_freq(f)` once, which returns 0 and stores `min f max_freq`; the
output is exactly ACK followed by the four bytes, and the phase is `SP_WAIT_CMD`.  For
bytes below 256, `f` is the 4-byte little-endian value. -/
theorem set_freq_clamps_and_echoes (k : Platform) (hk : k.WF) (m : Machine)
    (hm : m.state = .SP_WAIT_CMD) (i0 i1 i2 i3 i4 : Input) (h0 : i0.c = k.S_CMD_S_SPI_FREQ)
    (ht : timely i0.t_mark [i1, i2, i3, i4] = true)
    (hz : u32_le (bytes_mem [i1.c, i2.c, i3.c, i4.c]) 0 ≠ 0) :
    tx_of (emitted m (run k m [i0, i1, i2, i3, i4])) = [k.S_ACK, i1.c, i2.c, i3.c, i4.c] ∧
    tx_of (emitted m (run k m [i0, i1, i2, i3])) = [] ∧
    set_freqs_of (emitted m (run k m [i0, i1, i2, i3, i4])) =
      [u32_le (bytes_mem [i1.c, i2.c, i3.c, i4.c]) 0] ∧
    (∀ s, (spiop_set_freq k (u32_le (bytes_mem [i1.c, i2.c, i3.c, i4.c]) 0) s).1 = 0) ∧
    (run k m [i0, i1, i2, i3, i4]).spi_cfg.frequency =
      min (u32_le (bytes_mem [i1.c, i2.c, i3.c, i4.c]) 0) k.max_freq ∧
    (k.max_freq < u32_le (bytes_mem [i1.c, i2.c, i3.c, i4.c]) 0 →
      (run k m [i0, i1, i2, i3, i4]).spi_cfg.frequency = k.max_freq) ∧
    (run k m [i0, i1, i2, i3, i4]).state = .SP_WAIT_CMD ∧
    (i1.c < 256 → i2.c < 256 → i3.c < 256 → i4.c < 256 →
      u32_le (bytes_mem [i1.c, i2.c, i3.c, i4.c]) 0 =
        i1.c + 256 * i2.c + 65536 * i3.c + 16777216 * i4.c) := by
  obtain ⟨e4, e3⟩ := freq_fourth k hk m hm i0 i1 i2 i3 i4 h0 ht
  have hz1 : u32_le (buf_set (sp_mark_rx i4.t_mark (run k m [i0, i1, i2, i3])).byte_buf
      (sp_mark_rx i4.t_mark (run k m [i0, i1, i2, i3])).byte_counter i4.c) 0 ≠ 0 := by
    rw [e3]
    simp only [sp_mark_rx]
    rw [u32_le_four]
    exact hz
  have e5 := freq_nonzero k i4.c _ (by rw [e3]; simp [sp_mark_rx]) hz1
  rw [← e4] at e5
  have hfreq : (run k m [i0, i1, i2, i3, i4]).spi_cfg.frequency =
      min (u32_le (bytes_mem [i1.c, i2.c, i3.c, i4.c]) 0) k.max_freq := by
    rw [e5, e3]
    simp only [sp_mark_rx]
    rw [u32_le_four]
  have hlog : (run k m [i0, i1, i2, i3, i4]).log =
      m.log ++ (stores_from 0 [i1.c, i2.c, i3.c, i4.c] ++
        [Event.set_freq (u32_le (bytes_mem [i1.c, i2.c, i3.c, i4.c]) 0), Event.uart k.S_ACK] ++
        [i1.c, i2.c, i3.c, i4.c].map Event.uart) := by
    rw [e5, e3]
    simp only [sp_mark_rx]
    rw [u32_le_four, buf_bytes_four]
    simp [stores_from]
  have hem := emitted_append m _ _ hlog
  refine ⟨?_, ?_, ?_, fun s => rfl, hfreq, ?_, by rw [e5], ?_⟩
  · rw [hem]; simp [stores_from, tx_of]
  · rw [emitted_append m _ (stores_from 0 [i1.c, i2.c, i3.c]) (by rw [e3])]
    simp [stores_from, tx_of]
  · rw [hem]; simp [stores_from, set_freqs_of]
  · intro hgt
    rw [hfreq]
    exact Nat.min_eq_right (Nat.le_of_lt hgt)
  · intro b0 b1 b2 b3
    rw [u32_le_bytes _ 0 (by simpa [bytes_mem] using b0) (by simpa [bytes_mem] using b1)
      (by simpa [bytes_mem] using b2) (by simpa [bytes_mem] using b3)]
    simp [bytes_mem]

/-- C10 at the standard numbering with an 8 MHz maximum: a request for 16 MHz
(bytes 00 24 F4 00) is acknowledged, echoed, and stored as 8 MHz. -/
theorem set_freq_clamps_and_echoes_witness :
    std.WF ∧ (init std).state = .SP_WAIT_CMD ∧ (byte_at 0 0x14).c = std.S_CMD_S_SPI_FREQ ∧
    timely (byte_at 0 0x14).t_mark
      [byte_at 1 0x00, byte_at 2 0x24, byte_at 3 0xF4, byte_at 4 0x00] = true ∧
    u32_le (bytes_mem [0x00, 0x24, 0xF4, 0x00]) 0 = 16000000 ∧
    tx_of (emitted (init std) (run std (init std)
      [byte_at 0 0x14, byte_at 1 0x00, byte_at 2 0x24, byte_at 3 0xF4, byte_at 4 0x00]))
        = [0x06, 0x00, 0x24, 0xF4, 0x00] ∧
    (run std (init std)
      [byte_at 0 0x14, byte_at 1 0x00, byte_at 2 0x24, byte_at 3 0xF4, byte_at 4 0x00]
      ).spi_cfg.frequency = 8000000 :=
  ⟨by decide, rfl, rfl, by decide, by decide,
    (set_freq_clamps_and_echoes std (by decide) (init std) rfl (byte_at 0 0x14) (byte_at 1 0x00)
      (byte_at 2 0x24) (byte_at 3 0xF4) (byte_at 4 0x00) rfl (by decide) (by decide)).1,
    (set_freq_clamps_and_echoes std (by decide) (init std) rfl (byte_at 0 0x14) (byte_at 1 0x00)
      (byte_at 2 0x24) (byte_at 3 0xF4) (byte_at 4 0x00) rfl (by decide) (by decide)).2.2.2.2.2.1
      (by decide)⟩

/-! ## Bus-operation: the handler, case by case -/

/-- One of the first five header bytes: stored and counted. -/
theorem spiop_header_store (k : Platform) (d : Driver) (c : Nat) (m : Machine)
    (h : m.byte_counter < 5) :
    process_sp_spiop k d c m =
      { m with byte_buf := buf_set m.byte_buf m.byte_counter c,
               log := m.log ++ [Event.store m.byte_counter c],
               byte_counter := m.byte_counter + 1 } := by
  have h0 : m.byte_counter ≤ 5 := by omega
  have h1 : ¬ (BUF_SIZE < m.byte_counter + 1) := by simp [BUF_SIZE]; omega
  have h2 : ¬ (m.byte_counter = 5) := by omega
  simp [process_sp_spiop, h0, h1, h2, sp_exit, store_rx]

/-- The sixth header byte: stored, and both lengths decoded from `byte_buf[0..6)`. -/
theorem spiop_header_last (k : Platform) (d : Driver) (c : Nat) (m : Machine)
    (h : m.byte_counter = 5) :
    process_sp_spiop k d c m =
      { m with byte_buf := buf_set m.byte_buf 5 c,
               log := m.log ++ [Event.store 5 c],
               spiop_params := ⟨u24_le (buf_set m.byte_buf 5 c) 0, u24_le (buf_set m.byte_buf 5 c) 3⟩,
               byte_counter := 6 } := by
  have h1 : ¬ (BUF_SIZE < 5 + 1) := by simp [BUF_SIZE]
  simp [process_sp_spiop, h, h1, sp_exit, store_rx]

/-- A payload byte that is not the last one and does not fill the count: stored. -/
theorem spiop_payload_store (k : Platform) (d : Driver) (c : Nat) (m : Machine) (j : Nat)
    (hj : m.byte_counter = 6 + j) (hlt : j + 1 < m.spiop_params.slen)
    (hs : m.spiop_params.slen < 4294967296) (hb : 6 + j + 1 ≤ 4096) :
    process_sp_spiop k d c m =
      { m with byte_buf := buf_set m.byte_buf j c,
               log := m.log ++ [Event.store j c],
               byte_counter := 6 + j + 1 } := by
  have h0 : ¬ (6 + j ≤ 5) := by omega
  have h1 : ¬ (BUF_SIZE < 6 + j + 1) := by simp [BUF_SIZE]; omega
  have h2 : j < m.spiop_params.slen := by omega
  have h3 : ¬ (j = (m.spiop_params.slen + 4294967295) % 4294967296) := by omega
  simp [process_sp_spiop, hj, h0, h1, h2, h3, sp_exit, store_rx]

/-- A payload byte that is not the last one but makes the count exceed `BUF_SIZE`:
stored, then NAK and reset. -/
theorem spiop_payload_overflow (k : Platform) (d : Driver) (c : Nat) (m : Machine) (j : Nat)
    (hj : m.byte_counter = 6 + j) (hlt : j + 1 < m.spiop_params.slen)
    (hs : m.spiop_params.slen < 4294967296) (hb : 4096 < 6 + j + 1) :
    process_sp_spiop k d c m =
      { m with byte_buf := buf_set m.byte_buf j c,
               log := m.log ++ [Event.store j c, Event.uart k.S_NAK],
               state := .SP_WAIT_CMD,
               byte_counter := 0 } := by
  have h0 : ¬ (6 + j ≤ 5) := by omega
  have h1 : BUF_SIZE < 6 + j + 1 := by simp [BUF_SIZE]; omega
  have h2 : j < m.spiop_params.slen := by omega
  have h3 : ¬ (j = (m.spiop_params.slen + 4294967295) % 4294967296) := by omega
  simp [process_sp_spiop, hj, h0, h1, h2, h3, sp_exit, store_rx, sp_reset_state, uart_send_char,
    uart_send_buf, buf_bytes, List.range, List.range.loop]

/-- What follows the call of `spiop_transfer` in `process_sp_spiop`, `r` being the
result of the call. -/
theorem spiop_payload_last (k : Platform) (d : Driver) (c : Nat) (m : Machine) (j : Nat)
    (hj : m.byte_counter = 6 + j) (hlt : j + 1 = m.spiop_params.slen)
    (hs : m.spiop_params.slen < 4294967296) :
    process_sp_spiop k d c m =
      sp_reset_state
        (if (spiop_transfer k d m.spiop_params.slen m.spiop_params.rlen (store_rx j c m)).1 < 0
         then uart_send_char k.S_NAK
           (spiop_transfer k d m.spiop_params.slen m.spiop_params.rlen (store_rx j c m)).2
         else uart_send_buf
           (spiop_transfer k d m.spiop_params.slen m.spiop_params.rlen (store_rx j c m)).2.byte_buf
           (spiop_transfer k d m.spiop_params.slen m.spiop_params.rlen
             (store_rx j c m)).2.spiop_params.rlen
           (uart_send_char k.S_ACK
             (spiop_transfer k d m.spiop_params.slen m.spiop_params.rlen (store_rx j c m)).2)) := by
  have h0 : ¬ (6 + j ≤ 5) := by omega
  have h2 : j < m.spiop_params.slen := by omega
  have h3 : j = (m.spiop_params.slen + 4294967295) % 4294967296 := by omega
  have e : (store_rx j c m).spiop_params = m.spiop_params := rfl
  simp only [process_sp_spiop, hj, h0, if_false, Nat.add_sub_cancel_left, h2, if_true, e]
  rw [if_neg (by intro hh; exact hh.2 h3)]

/-- With `write_len = 0` the seventh data byte is not stored: it only triggers the call. -/
theorem spiop_no_payload (k : Platform) (d : Driver) (c : Nat) (m : Machine)
    (hj : 6 ≤ m.byte_counter) (hlt : ¬ (m.byte_counter - 6 < m.spiop_params.slen)) :
    process_sp_spiop k d c m =
      sp_reset_state
        (if (spiop_transfer k d m.spiop_params.slen m.spiop_params.rlen m).1 < 0
         then uart_send_char k.S_NAK
           (spiop_transfer k d m.spiop_params.slen m.spiop_params.rlen m).2
         else uart_send_buf
           (spiop_transfer k d m.spiop_params.slen m.spiop_params.rlen m).2.byte_buf
           (spiop_transfer k d m.spiop_params.slen m.spiop_params.rlen m).2.spiop_params.rlen
           (uart_send_char k.S_ACK
             (spiop_transfer k d m.spiop_params.slen m.spiop_params.rlen m).2)) := by
  have h0 : ¬ (m.byte_counter ≤ 5) := by omega
  simp only [process_sp_spiop, h0, if_false, hlt, false_and]

/-- The bus executor changes `byte_buf` and the log only. -/
theorem spiop_transfer_fields (k : Platform) (d : Driver) (slen rlen : Nat) (m : Machine) :
    (spiop_transfer k d slen rlen m).2.state = m.state ∧
    (spiop_transfer k d slen rlen m).2.cmd_in_process = m.cmd_in_process ∧
    (spiop_transfer k d slen rlen m).2.byte_counter = m.byte_counter ∧
    (spiop_transfer k d slen rlen m).2.spiop_params = m.spiop_params ∧
    (spiop_transfer k d slen rlen m).2.spi_cfg = m.spi_cfg ∧
    (spiop_transfer k d slen rlen m).2.last_rx_ms = m.last_rx_ms := by
  unfold spiop_transfer
  by_cases h0 : slen = 0 ∧ rlen = 0
  · simp [h0]
  · by_cases hs : slen = 0 <;> by_cases hw : d.write_ret = 0 <;> by_cases hr : rlen = 0 <;>
      simp [h0, hs, hw, hr]

/-- The log entry of the bus executor starts with the call itself and goes on with
driver calls only. -/
theorem spiop_transfer_log (k : Platform) (d : Driver) (slen rlen : Nat) (m : Machine) :
    ∃ es, (spiop_transfer k d slen rlen m).2.log = m.log ++ Event.transfer slen rlen :: es ∧
      tx_of es = [] ∧ transfers_of es = [] ∧ stores_of es = [] ∧ set_freqs_of es = [] := by
  unfold spiop_transfer
  by_cases h0 : slen = 0 ∧ rlen = 0
  · exact ⟨[], by simp [h0], rfl, rfl, rfl, rfl⟩
  · by_cases hs : slen = 0
    · have hr : rlen ≠ 0 := fun e => h0 ⟨hs, e⟩
      exact ⟨[Event.spi_read ⟨m.spi_cfg.frequency, m.spi_cfg.operation ||| k.SPI_HOLD_ON_CS⟩ rlen,
        Event.spi_release ⟨m.spi_cfg.frequency, m.spi_cfg.operation ||| k.SPI_HOLD_ON_CS⟩],
        by simp [h0, hs, hr], rfl, rfl, rfl, rfl⟩
    · by_cases hw : d.write_ret = 0
      · by_cases hr : rlen = 0
        · exact ⟨[Event.spi_write ⟨m.spi_cfg.frequency, m.spi_cfg.operation ||| k.SPI_HOLD_ON_CS⟩
              (buf_bytes m.byte_buf slen),
            Event.spi_release ⟨m.spi_cfg.frequency, m.spi_cfg.operation ||| k.SPI_HOLD_ON_CS⟩],
            by simp [h0, hs, hw, hr], rfl, rfl, rfl, rfl⟩
        · exact ⟨[Event.spi_write ⟨m.spi_cfg.frequency, m.spi_cfg.operation ||| k.SPI_HOLD_ON_CS⟩
              (buf_bytes m.byte_buf slen),
            Event.spi_read ⟨m.spi_cfg.frequency, m.spi_cfg.operation ||| k.SPI_HOLD_ON_CS⟩ rlen,
            Event.spi_release ⟨m.spi_cfg.frequency, m.spi_cfg.operation ||| k.SPI_HOLD_ON_CS⟩],
            by simp [h0, hs, hw, hr], rfl, rfl, rfl, rfl⟩
      · exact ⟨[Event.spi_write ⟨m.spi_cfg.frequency, m.spi_cfg.operation ||| k.SPI_HOLD_ON_CS⟩
            (buf_bytes m.byte_buf slen),
          Event.spi_release ⟨m.spi_cfg.frequency, m.spi_cfg.operation ||| k.SPI_HOLD_ON_CS⟩],
          by simp [h0, hs, hw], rfl, rfl, rfl, rfl⟩

/-! ## Buffers and logs of consecutive stores -/

theorem buf_write_below (cs : List Nat) :
    ∀ (buf : Nat → Nat) (j x : Nat), x < j → buf_write buf j cs x = buf x := by
  induction cs with
  | nil => intro buf j x _; rfl
  | cons c cs ih =>
    intro buf j x hx
    rw [buf_write, ih _ _ _ (by omega)]
    have : ¬ (x = j) := by omega
    simp [buf_set, this]

theorem buf_write_at (cs : List Nat) :
    ∀ (buf : Nat → Nat) (j n : Nat), n < cs.length → buf_write buf j cs (j + n) = cs.getD n 0 := by
  induction cs with
  | nil => intro buf j n hn; simp at hn
  | cons c cs ih =>
    intro buf j n hn
    rw [buf_write]
    cases n with
    | zero =>
      rw [Nat.add_zero, buf_write_below cs _ _ _ (by omega)]
      simp [buf_set]
    | succ n =>
      have e : j + (n + 1) = j + 1 + n := by omega
      rw [e, ih _ _ _ (by simpa using hn)]
      simp

theorem buf_write_append (cs ds : List Nat) :
    ∀ (buf : Nat → Nat) (j : Nat),
      buf_write buf j (cs ++ ds) = buf_write (buf_write buf j cs) (j + cs.length) ds := by
  induction cs with
  | nil => intro buf j; rfl
  | cons c cs ih =>
    intro buf j
    have e : j + (c :: cs).length = j + 1 + cs.length := by simp; omega
    rw [List.cons_append, buf_write, ih, buf_write, e]

theorem buf_write_snoc (buf : Nat → Nat) (j : Nat) (cs : List Nat) (c : Nat) :
    buf_write buf j (cs ++ [c]) = buf_set (buf_write buf j cs) (j + cs.length) c := by
  rw [buf_write_append]; rfl

theorem buf_bytes_eq (f : Nat → Nat) (l : List Nat) (h : ∀ n, n < l.length → f n = l.getD n 0) :
    buf_bytes f l.length = l := by
  apply List.ext_getElem
  · simp [buf_bytes]
  · intro n h1 h2
    simp only [buf_bytes, List.getElem_map, List.getElem_range]
    rw [h n h2, List.getD_eq_getElem _ _ h2]

/-- After the stores, the first bytes of the buffer are the stored bytes, in order. -/
theorem buf_bytes_buf_write (buf : Nat → Nat) (cs : List Nat) :
    buf_bytes (buf_write buf 0 cs) cs.length = cs := by
  apply buf_bytes_eq
  intro n hn
  have := buf_write_at cs buf 0 n hn
  rwa [Nat.zero_add] at this

theorem stores_from_append (cs ds : List Nat) :
    ∀ j, stores_from j (cs ++ ds) = stores_from j cs ++ stores_from (j + cs.length) ds := by
  induction cs with
  | nil => intro j; rfl
  | cons c cs ih =>
    intro j
    have e : j + (c :: cs).length = j + 1 + cs.length := by simp; omega
    rw [List.cons_append, stores_from, ih, stores_from, e, List.cons_append]

theorem tx_of_stores_from (cs : List Nat) : ∀ j, tx_of (stores_from j cs) = [] := by
  induction cs with
  | nil => intro j; rfl
  | cons c cs ih => intro j; simp [stores_from, tx_of, ih]

theorem transfers_of_stores_from (cs : List Nat) : ∀ j, transfers_of (stores_from j cs) = [] := by
  induction cs with
  | nil => intro j; rfl
  | cons c cs ih => intro j; simp [stores_from, transfers_of, ih]

theorem transfers_of_append (a b : List Event) :
    transfers_of (a ++ b) = transfers_of a ++ transfers_of b := by
  induction a with
  | nil => rfl
  | cons e a ih => cases e <;> simp [transfers_of, ih]

theorem transfers_of_map_uart (l : List Nat) : transfers_of (l.map Event.uart) = [] := by
  induction l with
  | nil => rfl
  | cons b l ih => simp [transfers_of, ih]

/-! ## Bus-operation: header and payload accumulation -/

/-- The session after the Bus-operation command byte and six timely header bytes. -/
theorem spiop_header_run (k : Platform) (hk : k.WF) (m : Machine) (hm : m.state = .SP_WAIT_CMD)
    (i0 h0 h1 h2 h3 h4 h5 : Input) (hc : i0.c = k.S_CMD_O_SPIOP)
    (ht : timely i0.t_mark [h0, h1, h2, h3, h4, h5] = true) :
    run k m [i0, h0, h1, h2, h3, h4, h5] =
      { m with state := .SP_WAIT_DATA, cmd_in_process := k.S_CMD_O_SPIOP, byte_counter := 6,
               last_rx_ms := h5.t_mark,
               byte_buf := buf_write (buf_set m.byte_buf 0 k.S_ACK) 0
                 [h0.c, h1.c, h2.c, h3.c, h4.c, h5.c],
               spiop_params :=
                 ⟨u24_le (bytes_mem [h0.c, h1.c, h2.c, h3.c, h4.c, h5.c]) 0,
                  u24_le (bytes_mem [h0.c, h1.c, h2.c, h3.c, h4.c, h5.c]) 3⟩,
               log := m.log ++ stores_from 0 [h0.c, h1.c, h2.c, h3.c, h4.c, h5.c] } := by
  simp only [timely_cons] at ht
  obtain ⟨t0, t1, t2, t3, t4, t5, -⟩ := ht
  simp only [run_cons, run_nil]
  rw [char_in_wait_cmd k i0 m hm, hc, command_deferred k hk _ _ m (Or.inr (Or.inl rfl))]
  rw [char_in_wait_data k h0 _ rfl t0, data_spiop k hk _ _ _ rfl,
    spiop_header_store k _ _ _ (by simp [sp_mark_rx])]
  rw [char_in_wait_data k h1 _ rfl t1, data_spiop k hk _ _ _ rfl,
    spiop_header_store k _ _ _ (by simp [sp_mark_rx])]
  rw [char_in_wait_data k h2 _ rfl t2, data_spiop k hk _ _ _ rfl,
    spiop_header_store k _ _ _ (by simp [sp_mark_rx])]
  rw [char_in_wait_data k h3 _ rfl t3, data_spiop k hk _ _ _ rfl,
    spiop_header_store k _ _ _ (by simp [sp_mark_rx])]
  rw [char_in_wait_data k h4 _ rfl t4, data_spiop k hk _ _ _ rfl,
    spiop_header_store k _ _ _ (by simp [sp_mark_rx])]
  rw [char_in_wait_data k h5 _ rfl t5, data_spiop k hk _ _ _ rfl,
    spiop_header_last k _ _ _ (by simp [sp_mark_rx])]
  simp [sp_mark_rx, buf_write, stores_from, u24_le, buf_set, bytes_mem]

/-- Payload bytes short of the last one, within the buffer count, are stored one after
the other from offset `j` on. -/
theorem spiop_payload_run (k : Platform) (hk : k.WF) (ps : List Input) :
    ∀ (m : Machine) (j : Nat), m.state = .SP_WAIT_DATA → m.cmd_in_process = k.S_CMD_O_SPIOP →
      m.byte_counter = 6 + j → j + ps.length < m.spiop_params.slen →
      m.spiop_params.slen < 4294967296 → 6 + j + ps.length ≤ 4096 →
      timely m.last_rx_ms ps = true →
      run k m ps =
        { m with byte_counter := 6 + j + ps.length,
                 last_rx_ms := last_mark m.last_rx_ms ps,
                 byte_buf := buf_write m.byte_buf j (ps.map Input.c),
                 log := m.log ++ stores_from j (ps.map Input.c) } := by
  induction ps with
  | nil =>
    intro m j _ _ hj _ _ _ _
    simp [run, buf_write, stores_from, last_mark, ← hj]
  | cons p ps ih =>
    intro m j hst hcmd hj hlt hs hb ht
    rw [timely_cons] at ht
    simp only [List.length_cons] at hlt hb
    rw [run_cons, char_in_wait_data k p m hst ht.1,
      data_spiop k hk p.drv p.c (sp_mark_rx p.t_mark m) hcmd,
      spiop_payload_store k p.drv p.c (sp_mark_rx p.t_mark m) j hj (by simp only [sp_mark_rx]; omega) hs (by omega)]
    refine Eq.trans (ih _ (j + 1) ?_ ?_ ?_ ?_ ?_ ?_ ?_) ?_
    · exact hst
    · exact hcmd
    · rfl
    · simp only [sp_mark_rx]; omega
    · exact hs
    · omega
    · exact ht.2
    · simp only [sp_mark_rx, List.map_cons, buf_write, stores_from, last_mark, List.length_cons,
        List.append_assoc, List.singleton_append]
      congr 1
      omega

/-! ## The log only grows -/

theorem switch_log (k : Platform) (t c : Nat) (m : Machine) :
    (process_sp_command_switch k t c m).1.log = m.log := by
  unfold process_sp_command_switch
  split_ifs <;> rfl

theorem command_log_grows (k : Platform) (t c : Nat) (m : Machine) :
    m.log <+: (process_sp_command k t c m).log := by
  simp only [process_sp_command]
  split_ifs
  · rw [uart_send_buf_log, switch_log]
    exact List.prefix_append _ _
  · rw [switch_log]

theorem sp_exit_log_grows (k : Platform) (m : Machine) : m.log <+: (sp_exit k m).log := by
  simp only [sp_exit]
  split_ifs
  · exact List.prefix_append _ _
  · exact List.prefix_refl _

theorem spiop_transfer_log_grows (k : Platform) (d : Driver) (slen rlen : Nat) (m : Machine) :
    m.log <+: (spiop_transfer k d slen rlen m).2.log := by
  obtain ⟨es, h, -⟩ := spiop_transfer_log k d slen rlen m
  rw [h]
  exact List.prefix_append _ _

theorem after_transfer_log_grows (k : Platform) (r : Int × Machine) :
    r.2.log <+: (sp_reset_state
      (if r.1 < 0 then uart_send_char k.S_NAK r.2
       else uart_send_buf r.2.byte_buf r.2.spiop_params.rlen (uart_send_char k.S_ACK r.2))).log := by
  split_ifs
  · exact List.prefix_append _ _
  · exact (List.prefix_append _ _).trans (List.prefix_append _ _)

theorem store_rx_log_grows (i c : Nat) (m : Machine) : m.log <+: (store_rx i c m).log :=
  List.prefix_append _ _

theorem spiop_log_grows (k : Platform) (d : Driver) (c : Nat) (m : Machine) :
    m.log <+: (process_sp_spiop k d c m).log := by
  simp only [process_sp_spiop]
  by_cases h1 : m.byte_counter ≤ 5
  · rw [if_pos h1]
    refine List.IsPrefix.trans ?_ (sp_exit_log_grows k _)
    split_ifs <;> exact store_rx_log_grows _ c m
  · rw [if_neg h1]
    by_cases h2 : m.byte_counter - 6 < m.spiop_params.slen ∧
        m.byte_counter - 6 ≠ (m.spiop_params.slen + 4294967295) % 4294967296
    · rw [if_pos h2, if_pos h2.1]
      exact List.IsPrefix.trans (store_rx_log_grows _ c m) (sp_exit_log_grows k _)
    · rw [if_neg h2]
      refine List.IsPrefix.trans ?_ (after_transfer_log_grows k _)
      refine List.IsPrefix.trans ?_ (spiop_transfer_log_grows k d _ _ _)
      split_ifs
      · exact store_rx_log_grows _ c m
      · exact List.prefix_refl _

theorem set_spi_freq_log_grows (k : Platform) (c : Nat) (m : Machine) :
    m.log <+: (process_sp_set_spi_freq k c m).log := by
  by_cases h : m.byte_counter < 3
  · rw [freq_store k c m h]
    exact List.prefix_append _ _
  · by_cases hz : u32_le (buf_set m.byte_buf m.byte_counter c) 0 = 0
    · rw [freq_zero k c m h hz]
      exact List.prefix_append _ _
    · rw [freq_nonzero k c m h hz]
      exact (List.prefix_append _ _).trans (List.prefix_append _ _)

theorem data_log_grows (k : Platform) (d : Driver) (c : Nat) (m : Machine) :
    m.log <+: (process_sp_data k d c m).log := by
  unfold process_sp_data
  split_ifs
  · exact List.prefix_append _ _
  · exact spiop_log_grows k d c m
  · exact set_spi_freq_log_grows k c m
  · exact List.prefix_refl _

theorem check_timeout_log (now : Nat) (m : Machine) : (sp_check_timeout now m).log = m.log := by
  unfold sp_check_timeout
  split_ifs <;> rfl

theorem char_log_grows (k : Platform) (i : Input) (m : Machine) :
    m.log <+: (process_sp_char k i m).log := by
  simp only [process_sp_char]
  split
  · exact (check_timeout_log i.t_check m) ▸ command_log_grows k _ _ _
  · exact (check_timeout_log i.t_check m) ▸ data_log_grows k _ _ (sp_mark_rx i.t_mark _)

theorem run_log_grows (k : Platform) (is : List Input) :
    ∀ m, m.log <+: (run k m is).log := by
  induction is with
  | nil => intro m; exact List.prefix_refl _
  | cons i is ih => intro m; exact (char_log_grows k i m).trans (ih _)

/-- What a prefix of the input has emitted is a prefix of what the whole input emits. -/
theorem emitted_prefix (k : Platform) (m : Machine) (pre suf : List Input) :
    emitted m (run k m pre) <+: emitted m (run k m (pre ++ suf)) := by
  obtain ⟨es1, h1⟩ := run_log_grows k pre m
  obtain ⟨es2, h2⟩ := run_log_grows k suf (run k m pre)
  rw [run_append]
  rw [emitted_append m _ es1 h1.symm, emitted_append m _ (es1 ++ es2) (by rw [← h2, ← h1]; simp)]
  exact List.prefix_append _ _

theorem tx_of_prefix_nil (a b : List Event) (h : a <+: b) (hb : tx_of b = []) : tx_of a = [] := by
  obtain ⟨es, rfl⟩ := h
  rw [tx_of_append] at hb
  exact (List.append_eq_nil.mp hb).1

theorem transfers_of_prefix_nil (a b : List Event) (h : a <+: b) (hb : transfers_of b = []) :
    transfers_of a = [] := by
  obtain ⟨es, rfl⟩ := h
  rw [transfers_of_append] at hb
  exact (List.append_eq_nil.mp hb).1

/-! ## Bus-operation: the whole exchange -/

theorem u24_le_lt (p : Nat → Nat) (off : Nat) : u24_le p off < 4294967296 :=
  Nat.mod_lt _ (by decide)

/-- The session before the last payload byte of a Bus-operation whose payload fits:
command byte, six header bytes and all payload bytes but the last were only stored. -/
theorem spiop_before_last (k : Platform) (hk : k.WF) (m : Machine)
    (hm : m.state = .SP_WAIT_CMD) (i0 h0 h1 h2 h3 h4 h5 : Input) (ps : List Input)
    (hc : i0.c = k.S_CMD_O_SPIOP)
    (hlen : ps.length < u24_le (bytes_mem [h0.c, h1.c, h2.c, h3.c, h4.c, h5.c]) 0)
    (hfit : 6 + ps.length ≤ 4096)
    (ht : timely i0.t_mark (h0 :: h1 :: h2 :: h3 :: h4 :: h5 :: ps) = true) :
    run k m (i0 :: h0 :: h1 :: h2 :: h3 :: h4 :: h5 :: ps) =
      { m with state := .SP_WAIT_DATA, cmd_in_process := k.S_CMD_O_SPIOP,
               byte_counter := 6 + ps.length,
               last_rx_ms := last_mark h5.t_mark ps,
               byte_buf := buf_write (buf_write (buf_set m.byte_buf 0 k.S_ACK) 0
                 [h0.c, h1.c, h2.c, h3.c, h4.c, h5.c]) 0 (ps.map Input.c),
               spiop_params :=
                 ⟨u24_le (bytes_mem [h0.c, h1.c, h2.c, h3.c, h4.c, h5.c]) 0,
                  u24_le (bytes_mem [h0.c, h1.c, h2.c, h3.c, h4.c, h5.c]) 3⟩,
               log := m.log ++ (stores_from 0 [h0.c, h1.c, h2.c, h3.c, h4.c, h5.c] ++
                 stores_from 0 (ps.map Input.c)) } := by
  have hsplit : h0 :: h1 :: h2 :: h3 :: h4 :: h5 :: ps = [h0, h1, h2, h3, h4, h5] ++ ps := rfl
  rw [hsplit, timely_append] at ht
  have e7 := spiop_header_run k hk m hm i0 h0 h1 h2 h3 h4 h5 hc ht.1
  have hrun : run k m (i0 :: h0 :: h1 :: h2 :: h3 :: h4 :: h5 :: ps) =
      run k (run k m [i0, h0, h1, h2, h3, h4, h5]) ps :=
    run_append k m [i0, h0, h1, h2, h3, h4, h5] ps
  rw [hrun, e7]
  refine Eq.trans (spiop_payload_run k hk ps _ 0 rfl rfl rfl ?_ ?_ ?_ ?_) ?_
  · simpa using hlen
  · exact u24_le_lt _ _
  · omega
  · exact ht.2
  · simp [List.append_assoc]

/-- The session `process_sp_spiop` hands to the bus executor on the last payload byte
`pl`, `P` being the session before that byte. -/
theorem spiop_last_byte (k : Platform) (hk : k.WF) (P : Machine) (pl : Input) (n : Nat)
    (hst : P.state = .SP_WAIT_DATA) (hcmd : P.cmd_in_process = k.S_CMD_O_SPIOP)
    (hbc : P.byte_counter = 6 + n) (hn : n + 1 = P.spiop_params.slen)
    (hs : P.spiop_params.slen < 4294967296)
    (ht : u32_sub pl.t_check P.last_rx_ms ≤ 300) :
    process_sp_char k pl P =
      sp_reset_state
        (if (spiop_transfer k pl.drv P.spiop_params.slen P.spiop_params.rlen
              (store_rx n pl.c (sp_mark_rx pl.t_mark P))).1 < 0
         then uart_send_char k.S_NAK
           (spiop_transfer k pl.drv P.spiop_params.slen P.spiop_params.rlen
              (store_rx n pl.c (sp_mark_rx pl.t_mark P))).2
         else uart_send_buf
           (spiop_transfer k pl.drv P.spiop_params.slen P.spiop_params.rlen
              (store_rx n pl.c (sp_mark_rx pl.t_mark P))).2.byte_buf
           P.spiop_params.rlen
           (uart_send_char k.S_ACK
             (spiop_transfer k pl.drv P.spiop_params.slen P.spiop_params.rlen
               (store_rx n pl.c (sp_mark_rx pl.t_mark P))).2)) := by
  rw [char_in_wait_data k pl P hst ht, data_spiop k hk pl.drv pl.c (sp_mark_rx pl.t_mark P) hcmd,
    spiop_payload_last k pl.drv pl.c (sp_mark_rx pl.t_mark P) n hbc hn hs]
  have e := (spiop_transfer_fields k pl.drv P.spiop_params.slen P.spiop_params.rlen
    (store_rx n pl.c (sp_mark_rx pl.t_mark P))).2.2.2.1
  have e2 : (sp_mark_rx pl.t_mark P).spiop_params = P.spiop_params := rfl
  rw [e2, e]
  rfl

/-- A Bus-operation exchange fed from `SP_WAIT_CMD` without timeout (command byte, six
header bytes declaring `slen` and `rlen`, then `slen` payload bytes `ps ++ [pl]`) whose
last payload byte arrives before the count passes `BUF_SIZE` (`5 + slen ≤ 4096`),
whatever `rlen` is and whatever the bus executor returns.  `P` is the session before the last payload byte, `C` the session at
the call of `spiop_transfer`. -/
theorem spiop_exchange (k : Platform) (hk : k.WF) (m : Machine)
    (hm : m.state = .SP_WAIT_CMD) (i0 h0 h1 h2 h3 h4 h5 : Input) (ps : List Input) (pl : Input)
    (hc : i0.c = k.S_CMD_O_SPIOP) (slen rlen : Nat)
    (hs : slen = u24_le (bytes_mem [h0.c, h1.c, h2.c, h3.c, h4.c, h5.c]) 0)
    (hr : rlen = u24_le (bytes_mem [h0.c, h1.c, h2.c, h3.c, h4.c, h5.c]) 3)
    (hlen : ps.length + 1 = slen) (hfit : 5 + slen ≤ 4096)
    (ht : timely i0.t_mark (h0 :: h1 :: h2 :: h3 :: h4 :: h5 :: (ps ++ [pl])) = true)
    (P : Machine) (hP : P = run k m (i0 :: h0 :: h1 :: h2 :: h3 :: h4 :: h5 :: ps))
    (C : Machine) (hC : C = store_rx (slen - 1) pl.c (sp_mark_rx pl.t_mark P)) :
    (∀ pre suf, pre ++ suf = i0 :: h0 :: h1 :: h2 :: h3 :: h4 :: h5 :: ps →
      tx_of (emitted m (run k m pre)) = [] ∧ transfers_of (emitted m (run k m pre)) = []) ∧
    emitted m P = stores_from 0 [h0.c, h1.c, h2.c, h3.c, h4.c, h5.c] ++
      stores_from 0 (ps.map Input.c) ∧
    buf_bytes C.byte_buf slen = (ps ++ [pl]).map Input.c ∧
    run k m (i0 :: h0 :: h1 :: h2 :: h3 :: h4 :: h5 :: (ps ++ [pl])) =
      sp_reset_state
        (if (spiop_transfer k pl.drv slen rlen C).1 < 0
         then uart_send_char k.S_NAK (spiop_transfer k pl.drv slen rlen C).2
         else uart_send_buf (spiop_transfer k pl.drv slen rlen C).2.byte_buf rlen
           (uart_send_char k.S_ACK (spiop_transfer k pl.drv slen rlen C).2)) ∧
    transfers_of (emitted m (run k m (i0 :: h0 :: h1 :: h2 :: h3 :: h4 :: h5 :: (ps ++ [pl]))))
      = [(slen, rlen)] ∧
    tx_of (emitted m (run k m (i0 :: h0 :: h1 :: h2 :: h3 :: h4 :: h5 :: (ps ++ [pl]))))
      = (if (spiop_transfer k pl.drv slen rlen C).1 < 0 then [k.S_NAK]
         else k.S_ACK :: buf_bytes (spiop_transfer k pl.drv slen rlen C).2.byte_buf rlen) := by
  -- timing of the two parts of the input
  have hsplit : h0 :: h1 :: h2 :: h3 :: h4 :: h5 :: (ps ++ [pl]) =
      (h0 :: h1 :: h2 :: h3 :: h4 :: h5 :: ps) ++ [pl] := rfl
  rw [hsplit, timely_append] at ht
  obtain ⟨ht1, ht2⟩ := ht
  have hmark : last_mark i0.t_mark (h0 :: h1 :: h2 :: h3 :: h4 :: h5 :: ps) =
      last_mark h5.t_mark ps := rfl
  rw [hmark, timely_cons] at ht2
  -- the session before the last payload byte
  have eP := spiop_before_last k hk m hm i0 h0 h1 h2 h3 h4 h5 ps hc (by omega) (by omega) ht1
  rw [← hP] at eP
  have hPlog : emitted m P = stores_from 0 [h0.c, h1.c, h2.c, h3.c, h4.c, h5.c] ++
      stores_from 0 (ps.map Input.c) := emitted_append m P _ (by rw [eP])
  have hPtx : tx_of (emitted m P) = [] := by
    rw [hPlog, tx_of_append, tx_of_stores_from, tx_of_stores_from]; rfl
  have hPtr : transfers_of (emitted m P) = [] := by
    rw [hPlog, transfers_of_append, transfers_of_stores_from, transfers_of_stores_from]; rfl
  -- the last payload byte
  have hslen : P.spiop_params.slen = slen := by rw [eP, hs]
  have hrlen : P.spiop_params.rlen = rlen := by rw [eP, hr]
  have hn : slen - 1 = ps.length := by omega
  have hwhole : run k m (i0 :: h0 :: h1 :: h2 :: h3 :: h4 :: h5 :: (ps ++ [pl])) =
      process_sp_char k pl P := by
    rw [hP]
    exact run_append k m (i0 :: h0 :: h1 :: h2 :: h3 :: h4 :: h5 :: ps) [pl]
  have hlast := spiop_last_byte k hk P pl ps.length (by rw [eP]) (by rw [eP]) (by rw [eP])
    (by rw [hslen]; exact hlen) (by rw [hslen, hs]; exact u24_le_lt _ _)
    (by rw [eP]; exact ht2.1)
  rw [hslen, hrlen, ← hn, ← hC] at hlast
  -- the log of the call
  obtain ⟨es, hlogT, hes_tx, hes_tr, -, -⟩ := spiop_transfer_log k pl.drv slen rlen C
  have hClog : C.log = m.log ++ (emitted m P ++ [Event.store (slen - 1) pl.c]) := by
    rw [hC, hPlog]
    simp only [store_rx, sp_mark_rx]
    rw [eP]
    simp [List.append_assoc]
  have hfinal : (run k m (i0 :: h0 :: h1 :: h2 :: h3 :: h4 :: h5 :: (ps ++ [pl]))).log =
      m.log ++ (emitted m P ++ [Event.store (slen - 1) pl.c] ++ Event.transfer slen rlen :: es ++
        (if (spiop_transfer k pl.drv slen rlen C).1 < 0 then [Event.uart k.S_NAK]
         else Event.uart k.S_ACK ::
          (buf_bytes (spiop_transfer k pl.drv slen rlen C).2.byte_buf rlen).map Event.uart)) := by
    rw [hwhole, hlast]
    split_ifs
    · simp only [sp_reset_state, uart_send_char_log]
      rw [hlogT, hClog]
      simp [List.append_assoc]
    · simp only [sp_reset_state, uart_send_buf_log, uart_send_char_log]
      rw [hlogT, hClog]
      simp [List.append_assoc]
  have hem := emitted_append m _ _ hfinal
  refine ⟨?_, hPlog, ?_, ?_, ?_, ?_⟩
  · intro pre suf hps
    have hpre := emitted_prefix k m pre suf
    rw [hps, ← hP] at hpre
    exact ⟨tx_of_prefix_nil _ _ hpre hPtx, transfers_of_prefix_nil _ _ hpre hPtr⟩
  · rw [hC, eP]
    simp only [store_rx, sp_mark_rx]
    have e : slen - 1 = 0 + (ps.map Input.c).length := by simp; omega
    rw [e, ← buf_write_snoc]
    have e2 : slen = (ps.map Input.c ++ [pl.c]).length := by simp; omega
    rw [e2, buf_bytes_buf_write]
    simp
  · rw [hwhole, hlast]
  · rw [hem]
    split_ifs
    · simp only [transfers_of_append, hPtr, transfers_of, hes_tr]
      rfl
    · simp only [transfers_of_append, hPtr, transfers_of, hes_tr, transfers_of_map_uart]
      rfl
  · rw [hem]
    split_ifs
    · simp only [tx_of_append, hPtx, tx_of, hes_tx]
      rfl
    · simp only [tx_of_append, hPtx, tx_of, hes_tx, tx_of_map_uart]
      rfl

/-- C1: a Bus-operation exchange fed from `SP_WAIT_CMD` without timeout (command byte,
six header bytes declaring `slen` and `rlen`, then `slen` payload bytes `ps ++ [pl]`),
with `1 ≤ slen`, `6 + slen ≤ 4096` and `rlen ≤ 4096`.  Before the last payload byte
nothing is sent and the bus executor is not called (after every prefix of the input);
`P` is the session before the last byte and `C` the session at the call.  On the last
byte `spiop_transfer` is called exactly once, with `(slen, rlen)` and a buffer whose
first `slen` bytes are the payload; when it returns a non-negative value the output of
the exchange is ACK followed by the first `rlen` bytes of the buffer as the executor
left it, and the phase is `SP_WAIT_CMD` again.  For header bytes below 256, `slen` and
`rlen` are the 3-byte little-endian values. -/
theorem spiop_exchange_ok (k : Platform) (hk : k.WF) (m : Machine)
    (hm : m.state = .SP_WAIT_CMD) (i0 h0 h1 h2 h3 h4 h5 : Input) (ps : List Input) (pl : Input)
    (hc : i0.c = k.S_CMD_O_SPIOP) (slen rlen : Nat)
    (hs : slen = u24_le (bytes_mem [h0.c, h1.c, h2.c, h3.c, h4.c, h5.c]) 0)
    (hr : rlen = u24_le (bytes_mem [h0.c, h1.c, h2.c, h3.c, h4.c, h5.c]) 3)
    (hlen : ps.length + 1 = slen) (hfit : 6 + slen ≤ 4096) (hrl : rlen ≤ 4096)
    (ht : timely i0.t_mark (h0 :: h1 :: h2 :: h3 :: h4 :: h5 :: (ps ++ [pl])) = true)
    (P : Machine) (hP : P = run k m (i0 :: h0 :: h1 :: h2 :: h3 :: h4 :: h5 :: ps))
    (C : Machine) (hC : C = store_rx (slen - 1) pl.c (sp_mark_rx pl.t_mark P))
    (hok : 0 ≤ (spiop_transfer k pl.drv slen rlen C).1) :
    (∀ pre suf, pre ++ suf = i0 :: h0 :: h1 :: h2 :: h3 :: h4 :: h5 :: ps →
      tx_of (emitted m (run k m pre)) = [] ∧ transfers_of (emitted m (run k m pre)) = []) ∧
    emitted m P = stores_from 0 [h0.c, h1.c, h2.c, h3.c, h4.c, h5.c] ++
      stores_from 0 (ps.map Input.c) ∧
    buf_bytes C.byte_buf slen = (ps ++ [pl]).map Input.c ∧
    slen ≤ BUF_SIZE ∧ rlen ≤ BUF_SIZE ∧
    run k m (i0 :: h0 :: h1 :: h2 :: h3 :: h4 :: h5 :: (ps ++ [pl])) =
      sp_reset_state (uart_send_buf (spiop_transfer k pl.drv slen rlen C).2.byte_buf rlen
        (uart_send_char k.S_ACK (spiop_transfer k pl.drv slen rlen C).2)) ∧
    transfers_of (emitted m (run k m (i0 :: h0 :: h1 :: h2 :: h3 :: h4 :: h5 :: (ps ++ [pl]))))
      = [(slen, rlen)] ∧
    tx_of (emitted m (run k m (i0 :: h0 :: h1 :: h2 :: h3 :: h4 :: h5 :: (ps ++ [pl]))))
      = k.S_ACK :: buf_bytes (spiop_transfer k pl.drv slen rlen C).2.byte_buf rlen ∧
    (run k m (i0 :: h0 :: h1 :: h2 :: h3 :: h4 :: h5 :: (ps ++ [pl]))).byte_buf =
      (spiop_transfer k pl.drv slen rlen C).2.byte_buf ∧
    (run k m (i0 :: h0 :: h1 :: h2 :: h3 :: h4 :: h5 :: (ps ++ [pl]))).state = .SP_WAIT_CMD ∧
    (h0.c < 256 → h1.c < 256 → h2.c < 256 → slen = h0.c + 256 * h1.c + 65536 * h2.c) ∧
    (h3.c < 256 → h4.c < 256 → h5.c < 256 → rlen = h3.c + 256 * h4.c + 65536 * h5.c) := by
  obtain ⟨hquiet, hPlog, hbuf, hrun, htr, htx⟩ :=
    spiop_exchange k hk m hm i0 h0 h1 h2 h3 h4 h5 ps pl hc slen rlen hs hr hlen (by omega) ht P hP
      C hC
  have hnot : ¬ (spiop_transfer k pl.drv slen rlen C).1 < 0 := by omega
  rw [if_neg hnot] at hrun htx
  refine ⟨hquiet, hPlog, hbuf, ?_, ?_, hrun, htr, htx, ?_, ?_, ?_, ?_⟩
  · simp only [BUF_SIZE]; omega
  · simp only [BUF_SIZE]; omega
  · rw [hrun]; rfl
  · rw [hrun]; rfl
  · intro b0 b1 b2
    rw [hs, u24_le_bytes _ 0 (by simpa [bytes_mem] using b0) (by simpa [bytes_mem] using b1)
      (by simpa [bytes_mem] using b2)]
    simp [bytes_mem]
  · intro b3 b4 b5
    rw [hr, u24_le_bytes _ 3 (by simpa [bytes_mem] using b3) (by simpa [bytes_mem] using b4)
      (by simpa [bytes_mem] using b5)]
    simp [bytes_mem]

/-- C1 on the JEDEC-ID read: command 0x13, header 03 00 00 02 00 00, payload 9F 00 00,
the driver answering C0 C1.  The output is ACK, C0, C1 and the executor was called once
with (3, 2). -/
theorem spiop_exchange_ok_witness :
    std.WF ∧ (init std).state = .SP_WAIT_CMD ∧ (byte_at 0 0x13).c = std.S_CMD_O_SPIOP ∧
    3 = u24_le (bytes_mem [3, 0, 0, 2, 0, 0]) 0 ∧ 2 = u24_le (bytes_mem [3, 0, 0, 2, 0, 0]) 3 ∧
    timely (byte_at 0 0x13).t_mark
      (byte_at 1 3 :: byte_at 2 0 :: byte_at 3 0 :: byte_at 4 2 :: byte_at 5 0 :: byte_at 6 0 ::
        ([byte_at 7 0x9F, byte_at 8 0] ++ [byte_at 9 0])) = true ∧
    0 ≤ (spiop_transfer std (byte_at 9 0).drv 3 2
      (store_rx (3 - 1) (byte_at 9 0).c (sp_mark_rx (byte_at 9 0).t_mark
        (run std (init std)
          (byte_at 0 0x13 :: byte_at 1 3 :: byte_at 2 0 :: byte_at 3 0 :: byte_at 4 2 ::
            byte_at 5 0 :: byte_at 6 0 :: [byte_at 7 0x9F, byte_at 8 0]))))).1 ∧
    transfers_of (emitted (init std) (run std (init std)
      (byte_at 0 0x13 :: byte_at 1 3 :: byte_at 2 0 :: byte_at 3 0 :: byte_at 4 2 ::
        byte_at 5 0 :: byte_at 6 0 :: ([byte_at 7 0x9F, byte_at 8 0] ++ [byte_at 9 0]))))
      = [(3, 2)] ∧
    tx_of (emitted (init std) (run std (init std)
      (byte_at 0 0x13 :: byte_at 1 3 :: byte_at 2 0 :: byte_at 3 0 :: byte_at 4 2 ::
        byte_at 5 0 :: byte_at 6 0 :: ([byte_at 7 0x9F, byte_at 8 0] ++ [byte_at 9 0]))))
      = [0x06, 0xC0, 0xC1] :=
  ⟨by decide, rfl, rfl, by decide, by decide, by decide, by decide,
    (spiop_exchange_ok std (by decide) (init std) rfl (byte_at 0 0x13) (byte_at 1 3)
      (byte_at 2 0) (byte_at 3 0) (byte_at 4 2) (byte_at 5 0) (byte_at 6 0)
      [byte_at 7 0x9F, byte_at 8 0] (byte_at 9 0) rfl 3 2 (by decide) (by decide) rfl
      (by decide) (by decide) (by decide) _ rfl _ rfl (by decide)).2.2.2.2.2.2.1,
    (spiop_exchange_ok std (by decide) (init std) rfl (byte_at 0 0x13) (byte_at 1 3)
      (byte_at 2 0) (byte_at 3 0) (byte_at 4 2) (byte_at 5 0) (byte_at 6 0)
      [byte_at 7 0x9F, byte_at 8 0] (byte_at 9 0) rfl 3 2 (by decide) (by decide) rfl
      (by decide) (by decide) (by decide) _ rfl _ rfl (by decide)).2.2.2.2.2.2.2.1⟩

/-! ## Stores of received bytes stay inside `byte_buf` -/

theorem stores_of_append (a b : List Event) :
    stores_of (a ++ b) = stores_of a ++ stores_of b := by
  induction a with
  | nil => rfl
  | cons e a ih => cases e <;> simp [stores_of, ih]

theorem stores_of_map_uart (l : List Nat) : stores_of (l.map Event.uart) = [] := by
  induction l with
  | nil => rfl
  | cons b l ih => simp [stores_of, ih]

theorem switch_byte_counter (k : Platform) (t c : Nat) (m : Machine) :
    (process_sp_command_switch k t c m).1.byte_counter = m.byte_counter := by
  unfold process_sp_command_switch
  split_ifs <;> rfl

theorem command_byte_counter (k : Platform) (t c : Nat) (m : Machine) :
    (process_sp_command k t c m).byte_counter = 0 := by
  simp only [process_sp_command]
  split_ifs
  · exact switch_byte_counter k t c _
  · exact switch_byte_counter k t c _

theorem command_stores (k : Platform) (t c : Nat) (m : Machine) :
    stores_of (process_sp_command k t c m).log = stores_of m.log := by
  simp only [process_sp_command]
  split_ifs
  · rw [uart_send_buf_log, switch_log, stores_of_append, stores_of_map_uart, List.append_nil]
  · rw [switch_log]

theorem inv_command (k : Platform) (t c : Nat) (m : Machine) (h : Inv k m) :
    Inv k (process_sp_command k t c m) := by
  refine ⟨?_, ?_, ?_⟩
  · rw [command_stores]; exact h.1
  · intro _ _; rw [command_byte_counter]; exact Nat.zero_le _
  · intro _ _; rw [command_byte_counter]; exact Nat.zero_le _

theorem inv_set_bustype (k : Platform) (c : Nat) (m : Machine) (h : Inv k m) :
    Inv k (process_sp_set_bustype k c m) := by
  refine ⟨?_, ?_, ?_⟩
  · simp only [process_sp_set_bustype, uart_send_char_log, stores_of_append, stores_of,
      List.append_nil]
    exact h.1
  · intro hs; exact absurd hs (by simp [process_sp_set_bustype])
  · intro hs; exact absurd hs (by simp [process_sp_set_bustype])

/-- The code at `exit:` keeps the invariant when the count was at most `BUF_SIZE`. -/
theorem inv_sp_exit (k : Platform) (m : Machine) (hst : ∀ i ∈ stores_of m.log, i < BUF_SIZE)
    (hfreq : m.state = .SP_WAIT_DATA → m.cmd_in_process = k.S_CMD_S_SPI_FREQ →
      m.byte_counter + 1 ≤ 3) :
    Inv k (sp_exit k m) := by
  simp only [sp_exit]
  split_ifs with hgt
  · refine ⟨?_, ?_, ?_⟩
    · simp only [sp_reset_state, uart_send_char_log, stores_of_append, stores_of,
        List.append_nil]
      exact hst
    · intro hs; exact absurd hs (by simp [sp_reset_state])
    · intro hs; exact absurd hs (by simp [sp_reset_state])
  · exact ⟨hst, fun _ _ => Nat.le_of_not_lt hgt, hfreq⟩

theorem inv_set_spi_freq (k : Platform) (c : Nat) (m : Machine) (h : Inv k m)
    (hs : m.state = .SP_WAIT_DATA) (hc : m.cmd_in_process = k.S_CMD_S_SPI_FREQ) :
    Inv k (process_sp_set_spi_freq k c m) := by
  have hbc : m.byte_counter ≤ 3 := h.2.2 hs hc
  have hB : m.byte_counter < BUF_SIZE := by simp only [BUF_SIZE]; omega
  by_cases h3 : m.byte_counter < 3
  · rw [freq_store k c m h3]
    refine ⟨?_, ?_, ?_⟩
    · intro i hi
      simp only [stores_of_append, stores_of, List.mem_append, List.mem_singleton] at hi
      rcases hi with hi | hi
      · exact h.1 i hi
      · rw [hi]; exact hB
    · intro _ _; simp only [BUF_SIZE]; omega
    · intro _ _; show m.byte_counter + 1 ≤ 3; omega
  · by_cases hz : u32_le (buf_set m.byte_buf m.byte_counter c) 0 = 0
    · rw [freq_zero k c m h3 hz]
      refine ⟨?_, ?_, ?_⟩
      · intro i hi
        simp only [stores_of_append, stores_of, List.mem_append, List.mem_singleton] at hi
        rcases hi with hi | hi
        · exact h.1 i hi
        · rw [hi]; exact hB
      · intro _ _; show m.byte_counter ≤ BUF_SIZE; omega
      · intro _ _; exact hbc
    · rw [freq_nonzero k c m h3 hz]
      refine ⟨?_, ?_, ?_⟩
      · intro i hi
        simp only [stores_of_append, stores_of, stores_of_map_uart, List.mem_append,
          List.mem_singleton, List.append_nil] at hi
        rcases hi with hi | hi
        · exact h.1 i hi
        · rw [hi]; exact hB
      · intro hs2; exact absurd hs2 (by simp)
      · intro hs2; exact absurd hs2 (by simp)

theorem transfer_stores (k : Platform) (d : Driver) (slen rlen : Nat) (m : Machine) :
    stores_of (spiop_transfer k d slen rlen m).2.log = stores_of m.log := by
  obtain ⟨es, h, -, -, hst, -⟩ := spiop_transfer_log k d slen rlen m
  rw [h, stores_of_append]
  simp [stores_of, hst]

theorem after_transfer_stores (k : Platform) (r : Int × Machine) :
    stores_of (sp_reset_state
      (if r.1 < 0 then uart_send_char k.S_NAK r.2
       else uart_send_buf r.2.byte_buf r.2.spiop_params.rlen (uart_send_char k.S_ACK r.2))).log
      = stores_of r.2.log := by
  split_ifs
  · simp [sp_reset_state, uart_send_char_log, stores_of_append, stores_of]
  · simp [sp_reset_state, uart_send_char_log, uart_send_buf_log, stores_of_append, stores_of,
      stores_of_map_uart]

theorem after_transfer_state (k : Platform) (r : Int × Machine) :
    (sp_reset_state
      (if r.1 < 0 then uart_send_char k.S_NAK r.2
       else uart_send_buf r.2.byte_buf r.2.spiop_params.rlen (uart_send_char k.S_ACK r.2))).state
      = .SP_WAIT_CMD := rfl

theorem inv_spiop (k : Platform) (hk : k.WF) (d : Driver) (c : Nat) (m : Machine) (h : Inv k m)
    (hs : m.state = .SP_WAIT_DATA) (hc : m.cmd_in_process = k.S_CMD_O_SPIOP) :
    Inv k (process_sp_spiop k d c m) := by
  have hbc : m.byte_counter ≤ BUF_SIZE := h.2.1 hs hc
  simp only [BUF_SIZE] at hbc
  have hd := WF_distinct k hk
  simp only [Platform.commands, List.pairwise_cons, List.mem_cons, List.mem_singleton,
    forall_eq_or_imp, forall_eq, List.not_mem_nil, IsEmpty.forall_iff, implies_true,
    List.Pairwise.nil, and_true] at hd
  have hne : k.S_CMD_O_SPIOP ≠ k.S_CMD_S_SPI_FREQ := by simp [hd]
  simp only [process_sp_spiop]
  by_cases h1 : m.byte_counter ≤ 5
  · rw [if_pos h1]
    apply inv_sp_exit
    · intro i hi
      have hlog : ∀ x : Machine, x.log = m.log ++ [Event.store m.byte_counter c] →
          i ∈ stores_of x.log → i < BUF_SIZE := by
        intro x hx hix
        rw [hx] at hix
        simp only [stores_of_append, stores_of, List.mem_append, List.mem_singleton] at hix
        rcases hix with hix | hix
        · exact h.1 i hix
        · rw [hix]; simp only [BUF_SIZE]; omega
      split_ifs at hi
      · exact hlog _ rfl hi
      · exact hlog _ rfl hi
    · intro _ hcf
      exfalso
      apply hne
      split_ifs at hcf
      · exact hc.symm.trans hcf
      · exact hc.symm.trans hcf
  · rw [if_neg h1]
    by_cases h2 : m.byte_counter - 6 < m.spiop_params.slen ∧
        m.byte_counter - 6 ≠ (m.spiop_params.slen + 4294967295) % 4294967296
    · rw [if_pos h2, if_pos h2.1]
      apply inv_sp_exit
      · intro i hi
        simp only [store_rx, stores_of_append, stores_of, List.mem_append,
          List.mem_singleton] at hi
        rcases hi with hi | hi
        · exact h.1 i hi
        · rw [hi]; simp only [BUF_SIZE]; omega
      · intro _ hcf
        exact absurd (hc.symm.trans hcf) hne
    · rw [if_neg h2]
      refine ⟨?_, ?_, ?_⟩
      · rw [after_transfer_stores, transfer_stores]
        intro i hi
        split_ifs at hi
        · simp only [store_rx, stores_of_append, stores_of, List.mem_append,
            List.mem_singleton] at hi
          rcases hi with hi | hi
          · exact h.1 i hi
          · rw [hi]; simp only [BUF_SIZE]; omega
        · exact h.1 i hi
      · intro hs2; rw [after_transfer_state] at hs2; exact absurd hs2 (by decide)
      · intro hs2; rw [after_transfer_state] at hs2; exact absurd hs2 (by decide)

theorem inv_data (k : Platform) (hk : k.WF) (d : Driver) (c : Nat) (m : Machine) (h : Inv k m)
    (hs : m.state = .SP_WAIT_DATA) : Inv k (process_sp_data k d c m) := by
  simp only [process_sp_data]
  split_ifs with h1 h2 h3
  · exact inv_set_bustype k c m h
  · exact inv_spiop k hk d c m h hs h2
  · exact inv_set_spi_freq k c m h hs h3
  · exact h

theorem inv_char (k : Platform) (hk : k.WF) (i : Input) (m : Machine) (h : Inv k m) :
    Inv k (process_sp_char k i m) := by
  have h1 : Inv k (sp_check_timeout i.t_check m) := by
    simp only [sp_check_timeout]
    split_ifs
    · exact h
    · exact ⟨h.1, fun hs => absurd hs (by simp [sp_reset_state]),
        fun hs => absurd hs (by simp [sp_reset_state])⟩
    · exact h
  simp only [process_sp_char]
  split
  · exact inv_command k _ _ _ h1
  · rename_i hst
    exact inv_data k hk _ _ (sp_mark_rx i.t_mark _) h1 hst

theorem inv_init (k : Platform) : Inv k (init k) :=
  ⟨fun i hi => absurd hi (by simp [init, stores_of]), fun hs => absurd hs (by simp [init]),
    fun hs => absurd hs (by simp [init])⟩

theorem inv_run (k : Platform) (hk : k.WF) (is : List Input) :
    ∀ m, Inv k m → Inv k (run k m is) := by
  induction is with
  | nil => intro m h; exact h
  | cons i is ih => intro m h; exact ih _ (inv_char k hk i m h)

theorem store_mem_stores_of (l : List Event) (i c : Nat) (h : Event.store i c ∈ l) :
    i ∈ stores_of l := by
  induction l with
  | nil => simp at h
  | cons e l ih =>
    rcases List.mem_cons.mp h with rfl | h1
    · simp [stores_of]
    · cases e <;> simp [stores_of, ih h1]

/-- C2: whatever bytes arrive and whenever, every store of a received byte into
`byte_buf` by the data-phase handlers has its index in `[0, BUF_SIZE)`; in every
reachable state `byte_counter` is at most 4096 when the Bus-operation handler is the
active one (so the payload index `byte_counter - 6` is at most 4090) and at most 3
when the Set-bus-frequency handler is. -/
theorem stores_within_buffer (k : Platform) (hk : k.WF) (is : List Input) :
    (∀ i c, Event.store i c ∈ (run k (init k) is).log → i < 4096) ∧
    ((run k (init k) is).state = .SP_WAIT_DATA →
      (run k (init k) is).cmd_in_process = k.S_CMD_O_SPIOP →
      (run k (init k) is).byte_counter ≤ 4096 ∧ (run k (init k) is).byte_counter - 6 ≤ 4090) ∧
    ((run k (init k) is).state = .SP_WAIT_DATA →
      (run k (init k) is).cmd_in_process = k.S_CMD_S_SPI_FREQ →
      (run k (init k) is).byte_counter ≤ 3) := by
  have h := inv_run k hk is (init k) (inv_init k)
  refine ⟨fun i c hic => h.1 i (store_mem_stores_of _ i c hic), ?_, h.2.2⟩
  intro hs hc
  have := h.2.1 hs hc
  simp only [BUF_SIZE] at this
  omega

/-- C2 at the standard numbering, after Set-bus-frequency and five zero bytes (the
handler is still the active one): the stores went to offsets 0, 1, 2, 3, 3 and
`byte_counter` is 3. -/
theorem stores_within_buffer_witness :
    std.WF ∧
    stores_of (run std (init std) [byte_at 0 0x14, byte_at 1 0, byte_at 2 0, byte_at 3 0,
      byte_at 4 0, byte_at 5 0]).log = [0, 1, 2, 3, 3] ∧
    (run std (init std) [byte_at 0 0x14, byte_at 1 0, byte_at 2 0, byte_at 3 0,
      byte_at 4 0, byte_at 5 0]).byte_counter ≤ 3 :=
  ⟨by decide, by decide,
    (stores_within_buffer std (by decide) [byte_at 0 0x14, byte_at 1 0, byte_at 2 0,
      byte_at 3 0, byte_at 4 0, byte_at 5 0]).2.2 (by decide) (by decide)⟩

/-! ## Bus-operation: lengths the handler does not check -/

/-- C3, the code at a failing input: command 0x13, header 01 00 00 FF FF FF (write_len 1,
read_len 0xFFFFFF), one payload byte.  The bus executor is called with
`(1, 0xFFFFFF)`: the read length exceeds `BUF_SIZE`, and `1 + 0xFFFFFF` bytes are then
handed to the transmit path from the 4096-byte buffer. -/
theorem oversized_read_len_reaches_executor :
    transfers_of (emitted (init std) (run std (init std)
      [byte_at 0 0x13, byte_at 1 0x01, byte_at 2 0x00, byte_at 3 0x00, byte_at 4 0xFF,
        byte_at 5 0xFF, byte_at 6 0xFF, byte_at 7 0xAB])) = [(1, 0xFFFFFF)] ∧
    ¬ (0xFFFFFF ≤ BUF_SIZE) ∧
    (tx_of (emitted (init std) (run std (init std)
      [byte_at 0 0x13, byte_at 1 0x01, byte_at 2 0x00, byte_at 3 0x00, byte_at 4 0xFF,
        byte_at 5 0xFF, byte_at 6 0xFF, byte_at 7 0xAB]))).length = 1 + 0xFFFFFF := by
  obtain ⟨-, -, -, -, htr, htx⟩ :=
    spiop_exchange std (by decide) (init std) rfl (byte_at 0 0x13) (byte_at 1 0x01)
      (byte_at 2 0x00) (byte_at 3 0x00) (byte_at 4 0xFF) (byte_at 5 0xFF) (byte_at 6 0xFF) []
      (byte_at 7 0xAB) rfl 1 0xFFFFFF (by decide) (by decide) rfl (by decide) (by decide)
      _ rfl _ rfl
  refine ⟨htr, by decide, ?_⟩
  have e : [byte_at 0 0x13, byte_at 1 0x01, byte_at 2 0x00, byte_at 3 0x00, byte_at 4 0xFF,
      byte_at 5 0xFF, byte_at 6 0xFF, byte_at 7 0xAB] =
    byte_at 0 0x13 :: byte_at 1 0x01 :: byte_at 2 0x00 :: byte_at 3 0x00 :: byte_at 4 0xFF ::
      byte_at 5 0xFF :: byte_at 6 0xFF :: ([] ++ [byte_at 7 0xAB]) := rfl
  rw [e, htx, if_neg (by decide), List.length_cons, buf_bytes_length, Nat.add_comm]


/-- C5, the code at a failing input: command 0x13 and the header 00 00 00 01 00 00
(write_len 0, read_len 1).  After the sixth header byte nothing was sent, the bus
executor was not called and the phase is still `SP_WAIT_DATA`; the transfer `(0, 1)`
happens only when a seventh byte (here a NOP, 301 ms apart from nothing) arrives, and
that byte is consumed without an answer of its own. -/
theorem read_only_spiop_needs_seventh_byte :
    (run std (init std) [byte_at 0 0x13, byte_at 1 0, byte_at 2 0, byte_at 3 0, byte_at 4 1,
      byte_at 5 0, byte_at 6 0]).state = .SP_WAIT_DATA ∧
    (run std (init std) [byte_at 0 0x13, byte_at 1 0, byte_at 2 0, byte_at 3 0, byte_at 4 1,
      byte_at 5 0, byte_at 6 0]).byte_counter = 6 ∧
    (run std (init std) [byte_at 0 0x13, byte_at 1 0, byte_at 2 0, byte_at 3 0, byte_at 4 1,
      byte_at 5 0, byte_at 6 0]).spiop_params = ⟨0, 1⟩ ∧
    (run std (init std) [byte_at 0 0x13, byte_at 1 0, byte_at 2 0, byte_at 3 0, byte_at 4 1,
      byte_at 5 0, byte_at 6 0]).log =
      [Event.store 0 0, Event.store 1 0, Event.store 2 0, Event.store 3 1, Event.store 4 0,
        Event.store 5 0] ∧
    (run std (init std) [byte_at 0 0x13, byte_at 1 0, byte_at 2 0, byte_at 3 0, byte_at 4 1,
      byte_at 5 0, byte_at 6 0, byte_at 7 std.S_CMD_NOP]).log =
      [Event.store 0 0, Event.store 1 0, Event.store 2 0, Event.store 3 1, Event.store 4 0,
        Event.store 5 0, Event.transfer 0 1,
        Event.spi_read ⟨8000000, 4352⟩ 1, Event.spi_release ⟨8000000, 4352⟩,
        Event.uart std.S_ACK, Event.uart 0xC0] ∧
    (run std (init std) [byte_at 0 0x13, byte_at 1 0, byte_at 2 0, byte_at 3 0, byte_at 4 1,
      byte_at 5 0, byte_at 6 0, byte_at 7 std.S_CMD_NOP]).state = .SP_WAIT_CMD := by
  decide

/-! ## Bus-operation: a failed transfer -/

/-- C11: a Bus-operation exchange (`1 ≤ slen`, `6 + slen ≤ 4096`) in which
`spiop_transfer` returns a negative value: the one call is made on the last payload
byte, the whole output of the exchange is the single byte NAK (no ACK, no read data),
and the session is reset to `SP_WAIT_CMD` with `byte_counter = 0`. -/
theorem spiop_exchange_failed (k : Platform) (hk : k.WF) (m : Machine)
    (hm : m.state = .SP_WAIT_CMD) (i0 h0 h1 h2 h3 h4 h5 : Input) (ps : List Input) (pl : Input)
    (hc : i0.c = k.S_CMD_O_SPIOP) (slen rlen : Nat)
    (hs : slen = u24_le (bytes_mem [h0.c, h1.c, h2.c, h3.c, h4.c, h5.c]) 0)
    (hr : rlen = u24_le (bytes_mem [h0.c, h1.c, h2.c, h3.c, h4.c, h5.c]) 3)
    (hlen : ps.length + 1 = slen) (hfit : 6 + slen ≤ 4096)
    (ht : timely i0.t_mark (h0 :: h1 :: h2 :: h3 :: h4 :: h5 :: (ps ++ [pl])) = true)
    (P : Machine) (hP : P = run k m (i0 :: h0 :: h1 :: h2 :: h3 :: h4 :: h5 :: ps))
    (C : Machine) (hC : C = store_rx (slen - 1) pl.c (sp_mark_rx pl.t_mark P))
    (hfail : (spiop_transfer k pl.drv slen rlen C).1 < 0) :
    (∀ pre suf, pre ++ suf = i0 :: h0 :: h1 :: h2 :: h3 :: h4 :: h5 :: ps →
      tx_of (emitted m (run k m pre)) = [] ∧ transfers_of (emitted m (run k m pre)) = []) ∧
    transfers_of (emitted m (run k m (i0 :: h0 :: h1 :: h2 :: h3 :: h4 :: h5 :: (ps ++ [pl]))))
      = [(slen, rlen)] ∧
    tx_of (emitted m (run k m (i0 :: h0 :: h1 :: h2 :: h3 :: h4 :: h5 :: (ps ++ [pl]))))
      = [k.S_NAK] ∧
    (run k m (i0 :: h0 :: h1 :: h2 :: h3 :: h4 :: h5 :: (ps ++ [pl]))).state = .SP_WAIT_CMD ∧
    (run k m (i0 :: h0 :: h1 :: h2 :: h3 :: h4 :: h5 :: (ps ++ [pl]))).byte_counter = 0 := by
  obtain ⟨hquiet, -, -, hrun, htr, htx⟩ :=
    spiop_exchange k hk m hm i0 h0 h1 h2 h3 h4 h5 ps pl hc slen rlen hs hr hlen (by omega) ht P hP
      C hC
  rw [if_pos hfail] at hrun htx
  refine ⟨hquiet, htr, htx, ?_, ?_⟩
  · rw [hrun]; rfl
  · rw [hrun]; rfl

/-- C11 at the standard numbering: the JEDEC-ID read with a driver whose `spi_write`
returns -5 is answered with NAK alone. -/
theorem spiop_exchange_failed_witness :
    std.WF ∧ (init std).state = .SP_WAIT_CMD ∧ (byte_at 0 0x13).c = std.S_CMD_O_SPIOP ∧
    timely (byte_at 0 0x13).t_mark
      (byte_at 1 3 :: byte_at 2 0 :: byte_at 3 0 :: byte_at 4 2 :: byte_at 5 0 :: byte_at 6 0 ::
        ([byte_at 7 0x9F, byte_at 8 0] ++ [⟨0, 9, 9, drv_write_fails⟩])) = true ∧
    (spiop_transfer std drv_write_fails 3 2
      (store_rx (3 - 1) 0 (sp_mark_rx 9
        (run std (init std)
          (byte_at 0 0x13 :: byte_at 1 3 :: byte_at 2 0 :: byte_at 3 0 :: byte_at 4 2 ::
            byte_at 5 0 :: byte_at 6 0 :: [byte_at 7 0x9F, byte_at 8 0]))))).1 < 0 ∧
    tx_of (emitted (init std) (run std (init std)
      (byte_at 0 0x13 :: byte_at 1 3 :: byte_at 2 0 :: byte_at 3 0 :: byte_at 4 2 ::
        byte_at 5 0 :: byte_at 6 0 :: ([byte_at 7 0x9F, byte_at 8 0] ++
          [⟨0, 9, 9, drv_write_fails⟩])))) = [0x15] :=
  ⟨by decide, rfl, rfl, by decide, by decide,
    (spiop_exchange_failed std (by decide) (init std) rfl (byte_at 0 0x13) (byte_at 1 3)
      (byte_at 2 0) (byte_at 3 0) (byte_at 4 2) (byte_at 5 0) (byte_at 6 0)
      [byte_at 7 0x9F, byte_at 8 0] ⟨0, 9, 9, drv_write_fails⟩ rfl 3 2 (by decide) (by decide)
      rfl (by decide) (by decide) _ rfl _ rfl (by decide)).2.2.1⟩

/-! ## Set-bus-type and the dispatch of command bytes -/

theorem set_bustype_eq (k : Platform) (c : Nat) (m : Machine) :
    process_sp_set_bustype k c m =
      { m with state := .SP_WAIT_CMD,
               log := m.log ++ [Event.uart (if c = BUSTYPE_SPI_ONLY then k.S_ACK else k.S_NAK)] } := by
  simp [process_sp_set_bustype, uart_send_char, uart_send_buf, buf_bytes, List.range,
    List.range.loop]

/-- C12: the data byte of Set-bus-type (phase `SP_WAIT_DATA`, active command
`S_CMD_S_BUSTYPE`, no timeout) is answered with exactly one byte, ACK if and only if
the byte is the SPI-only bitmask 0x08 and NAK otherwise; the phase is then
`SP_WAIT_CMD`, so the next byte is dispatched as a command. -/
theorem set_bustype_answer (k : Platform) (hk : k.WF) (i : Input) (m : Machine)
    (hm : m.state = .SP_WAIT_DATA) (hc : m.cmd_in_process = k.S_CMD_S_BUSTYPE)
    (ht : u32_sub i.t_check m.last_rx_ms ≤ 300) :
    emitted m (process_sp_char k i m) =
      [Event.uart (if i.c = 0x08 then k.S_ACK else k.S_NAK)] ∧
    (tx_of (emitted m (process_sp_char k i m)) = [k.S_ACK] ↔ i.c = 0x08) ∧
    (tx_of (emitted m (process_sp_char k i m)) = [k.S_NAK] ↔ i.c ≠ 0x08) ∧
    (process_sp_char k i m).state = .SP_WAIT_CMD ∧
    (∀ j : Input, process_sp_char k j (process_sp_char k i m) =
      process_sp_command k j.t_mark j.c (process_sp_char k i m)) := by
  have hne : k.S_ACK ≠ k.S_NAK := hk.2.2.1
  have e : process_sp_char k i m =
      { sp_mark_rx i.t_mark m with
        state := .SP_WAIT_CMD,
        log := m.log ++ [Event.uart (if i.c = 0x08 then k.S_ACK else k.S_NAK)] } := by
    rw [char_in_wait_data k i m hm ht, data_set_bustype k i.drv i.c (sp_mark_rx i.t_mark m) hc,
      set_bustype_eq]
    rfl
  have hem : emitted m (process_sp_char k i m) =
      [Event.uart (if i.c = 0x08 then k.S_ACK else k.S_NAK)] :=
    emitted_append m _ _ (by rw [e])
  have hst : (process_sp_char k i m).state = .SP_WAIT_CMD := by rw [e]
  refine ⟨hem, ?_, ?_, hst, fun j => char_in_wait_cmd k j _ hst⟩
  · rw [hem]
    by_cases h8 : i.c = 0x08
    · simp [tx_of, h8]
    · simp [tx_of, h8, Ne.symm hne]
  · rw [hem]
    by_cases h8 : i.c = 0x08
    · simp [tx_of, h8, hne]
    · simp [tx_of, h8]

/-- C12 at the standard numbering: 0x12 then 0x08 is answered with ACK. -/
theorem set_bustype_answer_witness :
    std.WF ∧ (run std (init std) [byte_at 0 0x12]).state = .SP_WAIT_DATA ∧
    (run std (init std) [byte_at 0 0x12]).cmd_in_process = std.S_CMD_S_BUSTYPE ∧
    u32_sub (byte_at 1 0x08).t_check (run std (init std) [byte_at 0 0x12]).last_rx_ms ≤ 300 ∧
    emitted (run std (init std) [byte_at 0 0x12])
      (process_sp_char std (byte_at 1 0x08) (run std (init std) [byte_at 0 0x12]))
      = [Event.uart 0x06] :=
  ⟨by decide, by decide, by decide, by decide,
    (set_bustype_answer std (by decide) (byte_at 1 0x08) (run std (init std) [byte_at 0 0x12])
      (by decide) (by decide) (by decide)).1⟩


/-- A command byte that is not one of the three deferred commands is answered at once,
with at least one byte, and leaves the phase as it was. -/
theorem resp_not_deferred (k : Platform) (hk : k.WF) (t c : Nat) (m : Machine)
    (hnd : ¬ (c = k.S_CMD_S_BUSTYPE ∨ c = k.S_CMD_O_SPIOP ∨ c = k.S_CMD_S_SPI_FREQ)) :
    tx_of (response k t c m) ≠ [] ∧ (process_sp_command k t c m).state = m.state := by
  by_cases hmem : c ∈ k.commands
  · simp only [Platform.commands, List.mem_cons, List.mem_singleton, List.not_mem_nil,
      or_false] at hmem
    rcases hmem with rfl | rfl | rfl | rfl | rfl | rfl | rfl | rfl | rfl | rfl | rfl | rfl | rfl
    · exact ⟨by rw [(resp_nop k _ m).1]; simp [tx_of], (resp_nop k _ m).2⟩
    · exact ⟨by rw [(resp_iface k hk _ m).1]; simp [tx_of], (resp_iface k hk _ m).2⟩
    · exact ⟨by rw [(resp_cmdmap k hk _ m).1, tx_of_map_uart]; simp,
        (resp_cmdmap k hk _ m).2⟩
    · exact ⟨by rw [(resp_pgmname k hk _ m).1, tx_of_map_uart]; simp,
        (resp_pgmname k hk _ m).2⟩
    · exact ⟨by rw [(resp_syncnop k hk _ m).1]; simp [tx_of], (resp_syncnop k hk _ m).2⟩
    · exact ⟨by rw [(resp_bufsize k hk _ _ m (Or.inl rfl)).1]; simp [tx_of],
        (resp_bufsize k hk _ _ m (Or.inl rfl)).2⟩
    · exact ⟨by rw [(resp_bufsize k hk _ _ m (Or.inr rfl)).1]; simp [tx_of],
        (resp_bufsize k hk _ _ m (Or.inr rfl)).2⟩
    · exact ⟨by rw [(resp_maxlen k hk _ _ m (Or.inl rfl)).1]; simp [tx_of],
        (resp_maxlen k hk _ _ m (Or.inl rfl)).2⟩
    · exact ⟨by rw [(resp_maxlen k hk _ _ m (Or.inr rfl)).1]; simp [tx_of],
        (resp_maxlen k hk _ _ m (Or.inr rfl)).2⟩
    · exact ⟨by rw [(resp_bustype k hk _ m).1]; simp [tx_of], (resp_bustype k hk _ m).2⟩
    · exact absurd (Or.inl rfl) hnd
    · exact absurd (Or.inr (Or.inl rfl)) hnd
    · exact absurd (Or.inr (Or.inr rfl)) hnd
  · exact ⟨by rw [(resp_default k t c m hmem).1]; simp [tx_of], (resp_default k t c m hmem).2⟩

/-- C13: in `SP_WAIT_CMD`, a byte that is not one of the thirteen supported codes is
answered with the single byte NAK and the phase stays `SP_WAIT_CMD`; and every byte
either is answered with at least one byte, the phase staying `SP_WAIT_CMD`, or, exactly
when it is Set-bus-type, Bus-operation or Set-bus-frequency, is not answered and moves
the session to `SP_WAIT_DATA` with `cmd_in_process` the byte, `byte_counter = 0` and
`last_rx_ms` the clock reading of `sp_mark_rx`. -/
theorem command_dispatch (k : Platform) (hk : k.WF) (i : Input) (m : Machine)
    (hm : m.state = .SP_WAIT_CMD) :
    (i.c ∉ k.commands →
      emitted m (process_sp_char k i m) = [Event.uart k.S_NAK] ∧
      (process_sp_char k i m).state = .SP_WAIT_CMD) ∧
    (¬ (i.c = k.S_CMD_S_BUSTYPE ∨ i.c = k.S_CMD_O_SPIOP ∨ i.c = k.S_CMD_S_SPI_FREQ) →
      tx_of (emitted m (process_sp_char k i m)) ≠ [] ∧
      (process_sp_char k i m).state = .SP_WAIT_CMD) ∧
    ((i.c = k.S_CMD_S_BUSTYPE ∨ i.c = k.S_CMD_O_SPIOP ∨ i.c = k.S_CMD_S_SPI_FREQ) →
      emitted m (process_sp_char k i m) = [] ∧
      (process_sp_char k i m).state = .SP_WAIT_DATA ∧
      (process_sp_char k i m).cmd_in_process = i.c ∧
      (process_sp_char k i m).byte_counter = 0 ∧
      (process_sp_char k i m).last_rx_ms = i.t_mark) ∧
    ((process_sp_char k i m).state = .SP_WAIT_DATA ↔
      (i.c = k.S_CMD_S_BUSTYPE ∨ i.c = k.S_CMD_O_SPIOP ∨ i.c = k.S_CMD_S_SPI_FREQ)) := by
  rw [char_in_wait_cmd k i m hm]
  have hdef : (i.c = k.S_CMD_S_BUSTYPE ∨ i.c = k.S_CMD_O_SPIOP ∨ i.c = k.S_CMD_S_SPI_FREQ) →
      emitted m (process_sp_command k i.t_mark i.c m) = [] ∧
      (process_sp_command k i.t_mark i.c m).state = .SP_WAIT_DATA ∧
      (process_sp_command k i.t_mark i.c m).cmd_in_process = i.c ∧
      (process_sp_command k i.t_mark i.c m).byte_counter = 0 ∧
      (process_sp_command k i.t_mark i.c m).last_rx_ms = i.t_mark := by
    intro hd
    refine ⟨resp_deferred k hk _ _ m hd, ?_, ?_, ?_, ?_⟩ <;>
      rw [command_deferred k hk _ _ m hd]
  have hnd : ¬ (i.c = k.S_CMD_S_BUSTYPE ∨ i.c = k.S_CMD_O_SPIOP ∨ i.c = k.S_CMD_S_SPI_FREQ) →
      tx_of (emitted m (process_sp_command k i.t_mark i.c m)) ≠ [] ∧
      (process_sp_command k i.t_mark i.c m).state = .SP_WAIT_CMD := by
    intro h
    have := resp_not_deferred k hk i.t_mark i.c m h
    exact ⟨this.1, by rw [this.2, hm]⟩
  refine ⟨?_, hnd, hdef, ?_⟩
  · intro hmem
    have := resp_default k i.t_mark i.c m hmem
    exact ⟨by simpa [response] using this.1, by rw [this.2, hm]⟩
  · constructor
    · intro hs
      by_contra h
      rw [(hnd h).2] at hs
      exact absurd hs (by decide)
    · intro h
      exact (hdef h).2.1

/-- C13 at the standard numbering, in the start-up state: the unsupported code 0x06 is
answered with NAK. -/
theorem command_dispatch_witness :
    std.WF ∧ (init std).state = .SP_WAIT_CMD ∧ (byte_at 0 0x06).c ∉ std.commands ∧
    emitted (init std) (process_sp_char std (byte_at 0 0x06) (init std)) = [Event.uart 0x15] :=
  ⟨by decide, rfl, by decide,
    ((command_dispatch std (by decide) (byte_at 0 0x06) (init std) rfl).1 (by decide)).1⟩

/-! ## Set-bus-frequency: the two exits that miss the reset -/

/-- C15, the code at a failing input: command 0x14 and the four bytes 00 00 00 00 are
answered with NAK, but `process_sp_set_spi_freq` returns without `sp_reset_state`: the
phase is still `SP_WAIT_DATA` with `byte_counter = 3`.  The next byte, a Sync (0x10)
1 ms later, is not dispatched as a command: it is stored as the fourth frequency byte,
`spiop_set_freq(0x10000000)` is called, and the answer is ACK 00 00 00 10 instead of
NAK, ACK. -/
theorem set_freq_zero_keeps_data_phase :
    (run std (init std) [byte_at 0 0x14, byte_at 1 0, byte_at 2 0, byte_at 3 0,
      byte_at 4 0]).state = .SP_WAIT_DATA ∧
    (run std (init std) [byte_at 0 0x14, byte_at 1 0, byte_at 2 0, byte_at 3 0,
      byte_at 4 0]).byte_counter = 3 ∧
    tx_of (run std (init std) [byte_at 0 0x14, byte_at 1 0, byte_at 2 0, byte_at 3 0,
      byte_at 4 0]).log = [std.S_NAK] ∧
    (run std (init std) [byte_at 0 0x14, byte_at 1 0, byte_at 2 0, byte_at 3 0, byte_at 4 0,
      byte_at 5 std.S_CMD_SYNCNOP]).log =
      [Event.store 0 0, Event.store 1 0, Event.store 2 0, Event.store 3 0,
        Event.uart std.S_NAK, Event.store 3 0x10, Event.set_freq 0x10000000,
        Event.uart std.S_ACK, Event.uart 0, Event.uart 0, Event.uart 0, Event.uart 0x10] ∧
    tx_of (emitted
      (run std (init std) [byte_at 0 0x14, byte_at 1 0, byte_at 2 0, byte_at 3 0, byte_at 4 0])
      (run std (init std) [byte_at 0 0x14, byte_at 1 0, byte_at 2 0, byte_at 3 0, byte_at 4 0,
        byte_at 5 std.S_CMD_SYNCNOP])) ≠ [std.S_NAK, std.S_ACK] := by
  decide

/-- C16, the code at a failing input: command 0x14 and the four bytes 40 42 0F 00
(1 MHz), from the start-up state.  The exchange is acknowledged and the phase is
`SP_WAIT_CMD`, but after `sp_reset_state` the function runs on into `exit:` and counts
the byte: `byte_counter` is 1, not 0. -/
theorem set_freq_success_leaves_counter_one :
    (init std).state = .SP_WAIT_CMD ∧ (init std).byte_counter = 0 ∧
    tx_of (run std (init std) [byte_at 0 0x14, byte_at 1 0x40, byte_at 2 0x42, byte_at 3 0x0F,
      byte_at 4 0x00]).log = [std.S_ACK, 0x40, 0x42, 0x0F, 0x00] ∧
    (run std (init std) [byte_at 0 0x14, byte_at 1 0x40, byte_at 2 0x42, byte_at 3 0x0F,
      byte_at 4 0x00]).state = .SP_WAIT_CMD ∧
    (run std (init std) [byte_at 0 0x14, byte_at 1 0x40, byte_at 2 0x42, byte_at 3 0x0F,
      byte_at 4 0x00]).byte_counter = 1 := by
  decide

/-! ## Bus-operation: the overflow guard -/

/-- Bytes that are all checked and stamped at the clock reading `t` are timely. -/
theorem timely_all (t : Nat) (l : List Input)
    (h : ∀ i ∈ l, i.t_check = t ∧ i.t_mark = t) : timely t l = true := by
  induction l with
  | nil => rfl
  | cons i is ih =>
    have hi := h i (List.mem_cons_self _ _)
    rw [timely_cons, hi.1, hi.2]
    refine ⟨?_, ih (fun j hj => h j (List.mem_cons_of_mem _ hj))⟩
    simp [u32_sub]

/-- A Bus-operation whose header declares more than 4091 payload bytes, fed without
timeout: the 4096 data bytes after the command byte (six header bytes, then the 4090
payload bytes `ps`) are only stored, and the 4097th (`pl`) is stored at offset 4090,
after which the guard at `exit:` sends NAK and resets the session. -/
theorem spiop_overflow (k : Platform) (hk : k.WF) (m : Machine)
    (hm : m.state = .SP_WAIT_CMD) (i0 h0 h1 h2 h3 h4 h5 : Input) (ps : List Input) (pl : Input)
    (hc : i0.c = k.S_CMD_O_SPIOP) (slen : Nat)
    (hs : slen = u24_le (bytes_mem [h0.c, h1.c, h2.c, h3.c, h4.c, h5.c]) 0)
    (hbig : 4091 < slen) (hlen : ps.length = 4090)
    (ht : timely i0.t_mark (h0 :: h1 :: h2 :: h3 :: h4 :: h5 :: (ps ++ [pl])) = true) :
    (∀ pre suf, pre ++ suf = i0 :: h0 :: h1 :: h2 :: h3 :: h4 :: h5 :: ps →
      tx_of (emitted m (run k m pre)) = [] ∧ transfers_of (emitted m (run k m pre)) = []) ∧
    emitted m (run k m (i0 :: h0 :: h1 :: h2 :: h3 :: h4 :: h5 :: (ps ++ [pl]))) =
      stores_from 0 [h0.c, h1.c, h2.c, h3.c, h4.c, h5.c] ++ stores_from 0 (ps.map Input.c) ++
        [Event.store 4090 pl.c, Event.uart k.S_NAK] ∧
    (run k m (i0 :: h0 :: h1 :: h2 :: h3 :: h4 :: h5 :: (ps ++ [pl]))).state = .SP_WAIT_CMD ∧
    (run k m (i0 :: h0 :: h1 :: h2 :: h3 :: h4 :: h5 :: (ps ++ [pl]))).byte_counter = 0 := by
  have hsplit : h0 :: h1 :: h2 :: h3 :: h4 :: h5 :: (ps ++ [pl]) =
      (h0 :: h1 :: h2 :: h3 :: h4 :: h5 :: ps) ++ [pl] := rfl
  rw [hsplit, timely_append] at ht
  obtain ⟨ht1, ht2⟩ := ht
  have hmark : last_mark i0.t_mark (h0 :: h1 :: h2 :: h3 :: h4 :: h5 :: ps) =
      last_mark h5.t_mark ps := rfl
  rw [hmark, timely_cons] at ht2
  have eP := spiop_before_last k hk m hm i0 h0 h1 h2 h3 h4 h5 ps hc (by omega) (by omega) ht1
  have hPlog : emitted m (run k m (i0 :: h0 :: h1 :: h2 :: h3 :: h4 :: h5 :: ps)) =
      stores_from 0 [h0.c, h1.c, h2.c, h3.c, h4.c, h5.c] ++ stores_from 0 (ps.map Input.c) :=
    emitted_append m _ _ (by rw [eP])
  have hPtx : tx_of (emitted m (run k m (i0 :: h0 :: h1 :: h2 :: h3 :: h4 :: h5 :: ps))) = [] := by
    rw [hPlog, tx_of_append, tx_of_stores_from, tx_of_stores_from]; rfl
  have hPtr :
      transfers_of (emitted m (run k m (i0 :: h0 :: h1 :: h2 :: h3 :: h4 :: h5 :: ps))) = [] := by
    rw [hPlog, transfers_of_append, transfers_of_stores_from, transfers_of_stores_from]; rfl
  have hwhole : run k m (i0 :: h0 :: h1 :: h2 :: h3 :: h4 :: h5 :: (ps ++ [pl])) =
      process_sp_char k pl (run k m (i0 :: h0 :: h1 :: h2 :: h3 :: h4 :: h5 :: ps)) :=
    run_append k m (i0 :: h0 :: h1 :: h2 :: h3 :: h4 :: h5 :: ps) [pl]
  have hlast : process_sp_char k pl (run k m (i0 :: h0 :: h1 :: h2 :: h3 :: h4 :: h5 :: ps)) =
      { sp_mark_rx pl.t_mark (run k m (i0 :: h0 :: h1 :: h2 :: h3 :: h4 :: h5 :: ps)) with
        byte_buf := buf_set
          (sp_mark_rx pl.t_mark (run k m (i0 :: h0 :: h1 :: h2 :: h3 :: h4 :: h5 :: ps))).byte_buf
          4090 pl.c,
        log := (sp_mark_rx pl.t_mark
          (run k m (i0 :: h0 :: h1 :: h2 :: h3 :: h4 :: h5 :: ps))).log ++
            [Event.store 4090 pl.c, Event.uart k.S_NAK],
        state := .SP_WAIT_CMD,
        byte_counter := 0 } := by
    rw [char_in_wait_data k pl _ (by rw [eP]) (by rw [eP]; exact ht2.1),
      data_spiop k hk pl.drv pl.c _ (by rw [eP]; rfl)]
    refine spiop_payload_overflow k pl.drv pl.c _ 4090 ?_ ?_ ?_ (by omega)
    · rw [eP]; simp only [sp_mark_rx]; omega
    · rw [eP]; simp only [sp_mark_rx]; omega
    · rw [eP]; simp only [sp_mark_rx]; rw [← hs]; rw [hs]; exact u24_le_lt _ _
  refine ⟨?_, ?_, ?_, ?_⟩
  · intro pre suf hps
    have hpre := emitted_prefix k m pre suf
    rw [hps] at hpre
    exact ⟨tx_of_prefix_nil _ _ hpre hPtx, transfers_of_prefix_nil _ _ hpre hPtr⟩
  · apply emitted_append
    rw [hwhole, hlast]
    simp only [sp_mark_rx]
    rw [eP]
    simp [List.append_assoc]
  · rw [hwhole, hlast]
  · rw [hwhole, hlast]

/-- Bytes arriving at one clock reading, a run of equal bytes among them, are timely. -/
theorem timely_replicate (t c : Nat) (pre : List Nat) (n : Nat) (post : List Nat) :
    timely t (pre.map (byte_at t) ++
      (List.replicate n (byte_at t c) ++ post.map (byte_at t))) = true := by
  apply timely_all
  intro i hi
  rcases List.mem_append.mp hi with h | h
  · obtain ⟨x, -, rfl⟩ := List.mem_map.mp h
    exact ⟨rfl, rfl⟩
  · rcases List.mem_append.mp h with h | h
    · rw [List.eq_of_mem_replicate h]
      exact ⟨rfl, rfl⟩
    · obtain ⟨x, -, rfl⟩ := List.mem_map.mp h
      exact ⟨rfl, rfl⟩

/-- C17: a Bus-operation whose header declares `write_len > 4096`, fed without timeout.
The bus executor is never called; after every prefix of the command byte and the first
4096 data bytes nothing has been sent; and on the 4097th data byte the engine sends
exactly one NAK and resets to `SP_WAIT_CMD` with `byte_counter = 0`. -/
theorem spiop_oversized_write_naks (k : Platform) (hk : k.WF) (m : Machine)
    (hm : m.state = .SP_WAIT_CMD) (i0 h0 h1 h2 h3 h4 h5 : Input) (ps : List Input) (pl : Input)
    (hc : i0.c = k.S_CMD_O_SPIOP)
    (hbig : 4096 < u24_le (bytes_mem [h0.c, h1.c, h2.c, h3.c, h4.c, h5.c]) 0)
    (hlen : ps.length = 4090)
    (ht : timely i0.t_mark (h0 :: h1 :: h2 :: h3 :: h4 :: h5 :: (ps ++ [pl])) = true) :
    (∀ pre suf, pre ++ suf = i0 :: h0 :: h1 :: h2 :: h3 :: h4 :: h5 :: ps →
      tx_of (emitted m (run k m pre)) = [] ∧ transfers_of (emitted m (run k m pre)) = []) ∧
    (h0 :: h1 :: h2 :: h3 :: h4 :: h5 :: ps).length = 4096 ∧
    transfers_of (emitted m (run k m (i0 :: h0 :: h1 :: h2 :: h3 :: h4 :: h5 :: (ps ++ [pl]))))
      = [] ∧
    tx_of (emitted m (run k m (i0 :: h0 :: h1 :: h2 :: h3 :: h4 :: h5 :: (ps ++ [pl]))))
      = [k.S_NAK] ∧
    (run k m (i0 :: h0 :: h1 :: h2 :: h3 :: h4 :: h5 :: (ps ++ [pl]))).state = .SP_WAIT_CMD ∧
    (run k m (i0 :: h0 :: h1 :: h2 :: h3 :: h4 :: h5 :: (ps ++ [pl]))).byte_counter = 0 := by
  obtain ⟨hquiet, hem, hst, hbc⟩ :=
    spiop_overflow k hk m hm i0 h0 h1 h2 h3 h4 h5 ps pl hc _ rfl (by omega) hlen ht
  refine ⟨hquiet, by simp [hlen], ?_, ?_, hst, hbc⟩
  · rw [hem, transfers_of_append, transfers_of_append, transfers_of_stores_from,
      transfers_of_stores_from]
    rfl
  · rw [hem, tx_of_append, tx_of_append, tx_of_stores_from, tx_of_stores_from]
    rfl

/-- C17 at the standard numbering: header FF FF FF 00 00 00 (write_len 0xFFFFFF) and
4091 payload bytes 0xAA, all at clock reading 0. -/
theorem spiop_oversized_write_naks_witness :
    std.WF ∧ (init std).state = .SP_WAIT_CMD ∧ (byte_at 0 0x13).c = std.S_CMD_O_SPIOP ∧
    4096 < u24_le (bytes_mem [0xFF, 0xFF, 0xFF, 0x00, 0x00, 0x00]) 0 ∧
    (List.replicate 4090 (byte_at 0 0xAA)).length = 4090 ∧
    timely (byte_at 0 0x13).t_mark
      (byte_at 0 0xFF :: byte_at 0 0xFF :: byte_at 0 0xFF :: byte_at 0 0x00 :: byte_at 0 0x00 ::
        byte_at 0 0x00 :: (List.replicate 4090 (byte_at 0 0xAA) ++ [byte_at 0 0xAA])) = true ∧
    tx_of (emitted (init std) (run std (init std)
      (byte_at 0 0x13 :: byte_at 0 0xFF :: byte_at 0 0xFF :: byte_at 0 0xFF :: byte_at 0 0x00 ::
        byte_at 0 0x00 :: byte_at 0 0x00 ::
        (List.replicate 4090 (byte_at 0 0xAA) ++ [byte_at 0 0xAA])))) = [0x15] :=
  ⟨by decide, rfl, rfl, by decide, List.length_replicate _ _,
    timely_replicate 0 0xAA [0xFF, 0xFF, 0xFF, 0x00, 0x00, 0x00] 4090 [0xAA],
    (spiop_oversized_write_naks std (by decide) (init std) rfl (byte_at 0 0x13) (byte_at 0 0xFF)
      (byte_at 0 0xFF) (byte_at 0 0xFF) (byte_at 0 0x00) (byte_at 0 0x00) (byte_at 0 0x00)
      (List.replicate 4090 (byte_at 0 0xAA)) (byte_at 0 0xAA) rfl (by decide)
      (List.length_replicate _ _)
      (timely_replicate 0 0xAA [0xFF, 0xFF, 0xFF, 0x00, 0x00, 0x00] 4090 [0xAA])).2.2.2.1⟩

/-- C18, the code at a failing input: the device answers Query-write-max-length (0x08)
with 4096, but a Bus-operation with header 00 10 00 01 00 00 (write_len 4096,
read_len 1) is not accepted: on the 4091st payload byte, the 4097th data byte, the
guard at `exit:` sends NAK and resets, and the bus executor has not been called. -/
theorem max_write_len_is_refused :
    tx_of (response std 0 std.S_CMD_Q_WRNMAXLEN (init std)) = [std.S_ACK, 0x00, 0x10, 0x00] ∧
    u24_le (bytes_mem [0x00, 0x10, 0x00, 0x01, 0x00, 0x00]) 0 = 4096 ∧
    transfers_of (emitted (init std) (run std (init std)
      (byte_at 0 0x13 :: byte_at 0 0x00 :: byte_at 0 0x10 :: byte_at 0 0x00 :: byte_at 0 0x01 ::
        byte_at 0 0x00 :: byte_at 0 0x00 ::
        (List.replicate 4090 (byte_at 0 0xAA) ++ [byte_at 0 0xAA])))) = [] ∧
    tx_of (emitted (init std) (run std (init std)
      (byte_at 0 0x13 :: byte_at 0 0x00 :: byte_at 0 0x10 :: byte_at 0 0x00 :: byte_at 0 0x01 ::
        byte_at 0 0x00 :: byte_at 0 0x00 ::
        (List.replicate 4090 (byte_at 0 0xAA) ++ [byte_at 0 0xAA])))) = [std.S_NAK] ∧
    (run std (init std)
      (byte_at 0 0x13 :: byte_at 0 0x00 :: byte_at 0 0x10 :: byte_at 0 0x00 :: byte_at 0 0x01 ::
        byte_at 0 0x00 :: byte_at 0 0x00 ::
        (List.replicate 4090 (byte_at 0 0xAA) ++ [byte_at 0 0xAA]))).state = .SP_WAIT_CMD := by
  obtain ⟨-, hem, hst, -⟩ :=
    spiop_overflow std (by decide) (init std) rfl (byte_at 0 0x13) (byte_at 0 0x00)
      (byte_at 0 0x10) (byte_at 0 0x00) (byte_at 0 0x01) (byte_at 0 0x00) (byte_at 0 0x00)
      (List.replicate 4090 (byte_at 0 0xAA)) (byte_at 0 0xAA) rfl 4096 (by decide) (by decide)
      (List.length_replicate _ _)
      (timely_replicate 0 0xAA [0x00, 0x10, 0x00, 0x01, 0x00, 0x00] 4090 [0xAA])
  refine ⟨by decide, by decide, ?_, ?_, hst⟩
  · rw [hem, transfers_of_append, transfers_of_append, transfers_of_stores_from,
      transfers_of_stores_from]
    rfl
  · rw [hem, tx_of_append, tx_of_append, tx_of_stores_from, tx_of_stores_from]
    rfl

/-! ## The bus executor -/

theorem lor_land_self (a h : Nat) : (a ||| h) &&& h = h := by
  apply Nat.eq_of_testBit_eq
  intro i
  simp only [Nat.testBit_and, Nat.testBit_or]
  cases a.testBit i <;> cases h.testBit i <;> rfl

theorem driver_calls_append (a b : List Event) :
    driver_calls (a ++ b) = driver_calls a ++ driver_calls b := by
  induction a with
  | nil => rfl
  | cons e a ih => cases e <;> simp [driver_calls, ih]

/-- C19: the calls `spiop_transfer(buf, slen, rlen)` makes to the driver, for all
lengths and all driver results.  With both lengths zero it returns -1 and calls
nothing.  Otherwise it writes `buf[0..slen)` iff `slen ≠ 0`, then reads `rlen` bytes
into `buf[0..rlen)` iff `rlen ≠ 0` and the write, if any, returned 0, both with
`SPI_HOLD_ON_CS` set in the configuration, then releases once, last; and it returns
the write's result when that is not 0, else the read's result when a read was made,
else 0. -/
theorem spiop_transfer_calls (k : Platform) (d : Driver) (slen rlen : Nat) (m : Machine) :
    (slen = 0 ∧ rlen = 0 →
      (spiop_transfer k d slen rlen m).1 = -1 ∧
      driver_calls (emitted m (spiop_transfer k d slen rlen m).2) = [] ∧
      (spiop_transfer k d slen rlen m).2.byte_buf = m.byte_buf) ∧
    (¬ (slen = 0 ∧ rlen = 0) →
      driver_calls (emitted m (spiop_transfer k d slen rlen m).2) =
        (if slen ≠ 0 then [Event.spi_write (cfg_hold k m) (buf_bytes m.byte_buf slen)] else []) ++
        (if rlen ≠ 0 ∧ (slen = 0 ∨ d.write_ret = 0) then [Event.spi_read (cfg_hold k m) rlen]
         else []) ++
        [Event.spi_release (cfg_hold k m)] ∧
      (spiop_transfer k d slen rlen m).1 =
        (if slen ≠ 0 ∧ d.write_ret ≠ 0 then d.write_ret
         else if rlen ≠ 0 then d.read_ret else 0) ∧
      (spiop_transfer k d slen rlen m).2.byte_buf =
        (if rlen ≠ 0 ∧ (slen = 0 ∨ d.write_ret = 0) then
          fun j => if j < rlen then d.read_data j else m.byte_buf j
         else m.byte_buf)) ∧
    (cfg_hold k m).operation &&& k.SPI_HOLD_ON_CS = k.SPI_HOLD_ON_CS ∧
    (cfg_hold k m).frequency = m.spi_cfg.frequency ∧
    (spiop_transfer k d slen rlen m).2.spi_cfg = m.spi_cfg := by
  refine ⟨?_, ?_, lor_land_self _ _, rfl, (spiop_transfer_fields k d slen rlen m).2.2.2.2.1⟩
  · intro h0
    simp [spiop_transfer, h0, emitted, driver_calls]
  · intro h0
    by_cases hs : slen = 0
    · have hr : rlen ≠ 0 := fun e => h0 ⟨hs, e⟩
      simp [spiop_transfer, hs, hr, emitted, driver_calls, cfg_hold]
    · by_cases hw : d.write_ret = 0
      · by_cases hr : rlen = 0
        · simp [spiop_transfer, hs, hr, hw, emitted, driver_calls, cfg_hold]
        · simp [spiop_transfer, hs, hr, hw, emitted, driver_calls, cfg_hold]
      · by_cases hr : rlen = 0
        · simp [spiop_transfer, hs, hr, hw, emitted, driver_calls, cfg_hold]
        · simp [spiop_transfer, hs, hr, hw, emitted, driver_calls, cfg_hold]

/-! ## The receive path -/

theorem rx_loop_succ (buf : Nat → Nat) (put_ret : Nat → Int) (st : RxPass) (n : Nat) :
    rx_loop buf put_ret st (n + 1) = rx_iter buf put_ret (rx_loop buf put_ret st n) n := by
  simp [rx_loop, List.range_succ, List.foldl_append]

/-- The loop after `n` turns: the queue has gained the bytes whose `k_msgq_put`
returned 0, in order; `dropped` has gained the number of the others; the engine's
globals are untouched. -/
theorem rx_loop_spec (buf : Nat → Nat) (put_ret : Nat → Int) (st : RxPass) (n : Nat) :
    (rx_loop buf put_ret st n).sys.rx_msgq =
      st.sys.rx_msgq ++ ((List.range n).filter (fun i => decide (put_ret i = 0))).map buf ∧
    (rx_loop buf put_ret st n).dropped =
      st.dropped + ((List.range n).filter (fun i => decide (put_ret i ≠ 0))).length ∧
    (rx_loop buf put_ret st n).sys.engine = st.sys.engine := by
  induction n with
  | zero => simp [rx_loop]
  | succ n ih =>
    obtain ⟨hq, hd, he⟩ := ih
    rw [rx_loop_succ]
    by_cases hp : put_ret n = 0
    · simp [rx_iter, hp, hq, hd, he, List.range_succ, List.filter_append]
    · simp [rx_iter, hp, hq, hd, he, List.range_succ, List.filter_append, Nat.add_assoc]

theorem rx_loop_dropped_mono (buf : Nat → Nat) (put_ret : Nat → Int) (st : RxPass) (a b : Nat)
    (hab : a ≤ b) :
    (rx_loop buf put_ret st a).dropped ≤ (rx_loop buf put_ret st b).dropped := by
  induction b with
  | zero =>
    have : a = 0 := by omega
    rw [this]
  | succ b ih =>
    by_cases h : a = b + 1
    · rw [h]
    · have h1 := ih (by omega)
      rw [rx_loop_succ]
      by_cases hp : put_ret b = 0
      · simpa [rx_iter, hp] using h1
      · simp only [rx_iter, hp, ne_eq, not_false_eq_true, if_true]
        omega

/-- C14: one pass of the receive-ready branch of `interrupt_handler` that read `r`
bytes, each `k_msgq_put` returning 0 (enqueued) or not (dropped).  The bytes appended
to the queue are exactly those whose enqueue succeeded, in arrival order; `dropped`
ends as the number of failed enqueues and never decreases from one turn of the loop to
a later one; turn `j` enqueues its byte whenever its `k_msgq_put` succeeds, whatever
happened to the bytes before it, and all `r` bytes are tried; the engine's globals are
not touched (the engine is called by `worker_thread` only, on the oldest queued byte). -/
theorem rx_ready_pass (r : Int) (buf : Nat → Nat) (put_ret : Nat → Int) (sys : System) :
    rx_ready r buf put_ret sys = rx_loop buf put_ret ⟨sys, 0⟩ r.toNat ∧
    (rx_ready r buf put_ret sys).sys.rx_msgq =
      sys.rx_msgq ++ ((List.range r.toNat).filter (fun i => decide (put_ret i = 0))).map buf ∧
    (rx_ready r buf put_ret sys).dropped =
      ((List.range r.toNat).filter (fun i => decide (put_ret i ≠ 0))).length ∧
    (∀ a b, a ≤ b → (rx_loop buf put_ret ⟨sys, 0⟩ a).dropped ≤
      (rx_loop buf put_ret ⟨sys, 0⟩ b).dropped) ∧
    (∀ j, put_ret j = 0 →
      (rx_loop buf put_ret ⟨sys, 0⟩ (j + 1)).sys.rx_msgq =
        (rx_loop buf put_ret ⟨sys, 0⟩ j).sys.rx_msgq ++ [buf j] ∧
      (rx_loop buf put_ret ⟨sys, 0⟩ (j + 1)).dropped = (rx_loop buf put_ret ⟨sys, 0⟩ j).dropped) ∧
    ((List.range r.toNat).filter (fun i => decide (put_ret i = 0))).length +
      (rx_ready r buf put_ret sys).dropped = r.toNat ∧
    (rx_ready r buf put_ret sys).sys.engine = sys.engine ∧
    (∀ k t_check t_mark d c rest e,
      worker_turn k t_check t_mark d ⟨c :: rest, e⟩ =
        ⟨rest, process_sp_char k ⟨c, t_check, t_mark, d⟩ e⟩) := by
  have hr : rx_ready r buf put_ret sys = rx_loop buf put_ret ⟨sys, 0⟩ r.toNat := by
    unfold rx_ready
    by_cases h : r < 0
    · have : r.toNat = 0 := by omega
      simp [h, this]
    · simp [h]
  obtain ⟨hq, hd, he⟩ := rx_loop_spec buf put_ret ⟨sys, 0⟩ r.toNat
  rw [Nat.zero_add] at hd
  refine ⟨hr, by rw [hr]; exact hq, by rw [hr]; exact hd,
    fun a b hab => rx_loop_dropped_mono buf put_ret _ a b hab, ?_, ?_, by rw [hr]; exact he,
    fun _ _ _ _ _ _ _ => rfl⟩
  · intro j hj
    rw [rx_loop_succ]
    simp [rx_iter, hj]
  · rw [hr, hd]
    have hsplit : ∀ n : Nat,
        ((List.range n).filter (fun i => decide (put_ret i = 0))).length +
          ((List.range n).filter (fun i => decide (put_ret i ≠ 0))).length = n := by
      intro n
      induction n with
      | zero => rfl
      | succ n ih =>
        by_cases hp : put_ret n = 0
        · simp [List.range_succ, List.filter_append, hp] at ih ⊢
          omega
        · simp [List.range_succ, List.filter_append, hp] at ih ⊢
          omega
    exact hsplit _

end Serprog
